import Mathlib

/-!
EmbedPromptService.cpp: the modal bridge and the auth prompt queue.

A shallow embedding of `src/prompt/EmbedPromptService.cpp`.

The C++ code blocks a caller by spinning the thread's event loop
(`ProcessNextEvent`) until a response message lowers `mModalDepth`.  Event
handlers run inside `ProcessNextEvent` and may call back into the same service,
so calls nest.  The embedding makes that call stack explicit: every blocking
function is cut at its wait loop into an `enter` part (the text before the
loop) and a `leave` part (the text after it), an active call is a frame, and
one event of the thread is one `step` of a machine over (service, stack).

Pointers are numbers; `none` (or 0 for a window) is the null pointer.  Strings
stand for both nsString and nsCString.  `int mModalDepth` is an unbounded Int.
-/

namespace EmbedLite

/-! ## Shared vocabulary -/

/-- The nsresult codes that occur in the file (NS_ERROR_ABORT stands for any other failure). -/
inductive nsresult
  | NS_OK
  | NS_ERROR_FAILURE
  | NS_ERROR_UNEXPECTED
  | NS_ERROR_INVALID_ARG
  | NS_ERROR_ABORT
  deriving DecidableEq, Repr

/-- NS_SUCCEEDED(rv). -/
def NS_SUCCEEDED : nsresult → Bool
  | .NS_OK => true
  | _ => false

/-- NS_FAILED(rv). -/
def NS_FAILED (rv : nsresult) : Bool := !NS_SUCCEEDED rv

/-- `std::map::find`: the value stored under a key, if any. -/
def mapFind {κ α : Type} [DecidableEq κ] : List (κ × α) → κ → Option α
  | [], _ => none
  | (k', v) :: rest, k => if k' = k then some v else mapFind rest k

/-- `m[k] = v` on a `std::map`: replace the value of `k`, or insert it at its place in key order. -/
def mapSet {κ α : Type} [DecidableEq κ] [LT κ] [DecidableRel (fun a b : κ => a < b)] :
    List (κ × α) → κ → α → List (κ × α)
  | [], k, v => [(k, v)]
  | (k', v') :: rest, k, v =>
    if k' = k then (k, v) :: rest
    else if k < k' then (k, v) :: (k', v') :: rest
    else (k', v') :: mapSet rest k v

/-- `std::map::erase` of a key. -/
def mapErase {κ α : Type} [DecidableEq κ] (m : List (κ × α)) (k : κ) : List (κ × α) :=
  m.filter (fun e => decide (e.1 ≠ k))

/-- The record stored in `mResponseMap` (class EmbedPromptResponse). -/
structure EmbedPromptResponse where
  accepted : Bool
  checkvalue : Bool
  dontsave : Bool
  promptvalue : String
  username : String
  password : String
  deriving DecidableEq, Repr

/-- Modelled from the spec: the constructor `EmbedPromptResponse()` is declared in
EmbedPromptService.h, which is not among the sources.  The spec describes the entry created when
a blocking request begins as unresolved, "without a real payload": not accepted, flags off,
strings empty. -/
def EmbedPromptResponse.fresh : EmbedPromptResponse :=
  ⟨false, false, false, "", "", ""⟩

/-- The property bag `root` that `ParseJSON` yields for a response message.  A field is `none`
when the message lacks the property: the `GetPropertyAs...` getter then fails and leaves its
out-parameter as it was. -/
structure Root where
  winid : Option Nat
  accepted : Option Bool
  checkvalue : Option Bool
  dontsave : Option Bool
  promptvalue : Option String
  username : Option String
  password : Option String
  deriving DecidableEq, Repr

/-- An nsILoginInfo as this file fills it: host name, HTTP realm, user name, password. -/
structure nsILoginInfo where
  hostname : String
  httpRealm : String
  username : String
  password : String
  deriving DecidableEq, Repr

/-- Calls made on the collaborators (`mService`, the window utils, the observer service, the
login manager), in the order they are made. The JSON payload of an outgoing message is not
recorded. -/
inductive Effect
  | SendAsyncMessage (winid : Nat) (name : String)
  | AddMessageListener (name : String)
  | RemoveMessageListener (name : String)
  | EnterSecureJSContext
  | LeaveSecureJSContext
  | EnterModalState
  | LeaveModalState
  | RemoveObserver
  | RemoveLogin (login : nsILoginInfo)
  | AddLogin (login : nsILoginInfo)
  deriving DecidableEq, Repr

/-- The find / read / erase sequence that every blocking function runs on `mResponseMap` after
its wait loop: `none` when `find` returns `end()`. -/
def takeResponse (m : List (Nat × EmbedPromptResponse)) (winid : Nat) :
    Option (EmbedPromptResponse × List (Nat × EmbedPromptResponse)) :=
  match mapFind m winid with
  | none => none
  | some r => some (r, mapErase m winid)

/-! ## EmbedPromptService -/

/-- The nsIPrompt entry points that block. -/
inductive Api
  | Alert
  | AlertCheck
  | Confirm
  | ConfirmCheck
  | Prompt
  deriving DecidableEq, Repr

/-- The in/out pointer arguments of a call; `none` is a null pointer, `some v` a pointer to a
variable that holds `v`. -/
structure Args where
  aCheckValue : Option Bool
  aConfirm : Option Bool
  aValue : Option String
  deriving DecidableEq, Repr

/-- What a finished call hands back: its nsresult and the variables behind its pointers. -/
structure CallResult where
  api : Api
  rv : nsresult
  aCheckValue : Option Bool
  aConfirm : Option Bool
  aValue : Option String
  deriving DecidableEq, Repr

/-- An active call that sits in its wait loop: its locals `winid` and `origModalDepth` and the
pointers it was given. -/
structure Frame where
  api : Api
  winid : Nat
  origModalDepth : Int
  aCheckValue : Option Bool
  aConfirm : Option Bool
  aValue : Option String
  deriving DecidableEq, Repr

/-- One EmbedPromptService object, the part of its surroundings it consults, and what it has
done so far.
* `mModalDepth`, `mResponseMap`, `mOuterService` (non-null or not): the members;
* `observing`: the outer observer is registered for "outer-window-destroyed";
* `winid`: what `mService->GetIDByWindow(mWin, ..)` reports now (0 once the window is gone);
* `utils`: whether `do_GetInterface(mWin)` yields the window utils;
* `enterModalState`: the result of `utils->EnterModalState()`;
* `trace`, `returned`: the collaborator calls made and the calls finished, oldest first. -/
structure EmbedPromptService where
  mModalDepth : Int
  mResponseMap : List (Nat × EmbedPromptResponse)
  mOuterService : Bool
  observing : Bool
  winid : Nat
  utils : Bool
  enterModalState : nsresult
  trace : List Effect
  returned : List CallResult
  deriving DecidableEq, Repr

namespace EmbedPromptService

/-- A service as its constructor leaves it, for a window whose id is `winid`. -/
def create (winid : Nat) : EmbedPromptService :=
  ⟨0, [], true, true, winid, true, .NS_OK, [], []⟩

/-- `EmbedPromptOuterObserver::OnDestroy`. -/
def OnDestroy (s : EmbedPromptService) : EmbedPromptService :=
  { s with observing := false, trace := s.trace ++ [Effect.RemoveObserver] }

/-- `EmbedPromptService::CancelResponse`: one decrement per entry of the response map. -/
def CancelResponse (s : EmbedPromptService) : EmbedPromptService :=
  { s with mModalDepth := s.mResponseMap.foldl (fun d _ => d - 1) s.mModalDepth }

/-- `EmbedPromptService::OnDestroyNotification`. -/
def OnDestroyNotification (s : EmbedPromptService) : EmbedPromptService :=
  s.CancelResponse

/-- `EmbedPromptOuterObserver::Observe` for the topic "outer-window-destroyed"; the observer
service calls it only while the observer is alive and registered. -/
def Observe (s : EmbedPromptService) : EmbedPromptService :=
  if s.mOuterService && s.observing then s.OnDestroy.OnDestroyNotification else s

/-- `EmbedPromptService::OnMessageReceived`; `message = none` is a text `ParseJSON` rejects. -/
def OnMessageReceived (message : Option Root) (s : EmbedPromptService) :
    nsresult × EmbedPromptService :=
  match message with
  | none => (.NS_ERROR_FAILURE, s)
  | some root =>
    let winid := root.winid.getD 0
    match mapFind s.mResponseMap winid with
    | none => (.NS_ERROR_FAILURE, s)
    | some response =>
      let response := { response with
        promptvalue := root.promptvalue.getD response.promptvalue,
        accepted := root.accepted.getD response.accepted,
        checkvalue := root.checkvalue.getD response.checkvalue }
      (.NS_OK, { s with mResponseMap := mapSet s.mResponseMap winid response,
                        mModalDepth := s.mModalDepth - 1 })

/-- `EmbedPromptService::CheckWinID`. -/
def CheckWinID (s : EmbedPromptService) : Nat × EmbedPromptService :=
  let winid := s.winid
  if winid = 0 && s.mOuterService then
    (winid, { s.OnDestroy with mOuterService := false })
  else (winid, s)

/-- The request and response message names of an entry point. -/
def messageNames : Api → String × String
  | .Alert => ("embed:alert", "alertresponse")
  | .AlertCheck => ("embed:alert", "alertresponse")
  | .Confirm => ("embed:confirm", "confirmresponse")
  | .ConfirmCheck => ("embed:confirm", "confirmresponse")
  | .Prompt => ("embed:prompt", "promptresponse")

/-- The pointers that reach the blocking body: `Alert` and `Confirm` pass null for the check
value, and only `Prompt` has a value pointer, only the confirm family a confirm pointer. -/
def frameOf (api : Api) (args : Args) (winid : Nat) (orig : Int) : Frame :=
  match api with
  | .Alert => ⟨api, winid, orig, none, none, none⟩
  | .AlertCheck => ⟨api, winid, orig, args.aCheckValue, none, none⟩
  | .Confirm => ⟨api, winid, orig, none, args.aConfirm, none⟩
  | .ConfirmCheck => ⟨api, winid, orig, args.aCheckValue, args.aConfirm, none⟩
  | .Prompt => ⟨api, winid, orig, args.aCheckValue, args.aConfirm, args.aValue⟩

/-- Record that a call has returned.  `Alert` and `Confirm` drop the result of the body they
wrap and return NS_OK. -/
def ret (s : EmbedPromptService) (f : Frame) (rv : nsresult) (check confirm : Option Bool)
    (value : Option String) : EmbedPromptService :=
  let rv := if f.api = .Alert ∨ f.api = .Confirm then .NS_OK else rv
  { s with returned := s.returned ++ [⟨f.api, rv, check, confirm, value⟩] }

/-- The text of AlertCheck / ConfirmCheck / Prompt from the top to the head of the wait loop
(lines 214-246, 295-331, 389-427): begin the entry, send the request, add the listener, enter
the secure context, fetch the window utils (an early NS_ERROR_FAILURE when absent), enter modal
state, raise the depth.  Yields the frame and the `rv` the loop starts with, or nothing when
the call has already returned. -/
def enter (api : Api) (args : Args) (s : EmbedPromptService) :
    Option (Frame × nsresult) × EmbedPromptService :=
  let winid := s.winid
  let s := { s with
    mResponseMap := mapSet s.mResponseMap winid EmbedPromptResponse.fresh,
    trace := s.trace ++ [Effect.SendAsyncMessage winid (messageNames api).1,
                         Effect.AddMessageListener (messageNames api).2,
                         Effect.EnterSecureJSContext] }
  if !s.utils then
    let f := frameOf api args winid 0
    (none, s.ret f .NS_ERROR_FAILURE f.aCheckValue f.aConfirm f.aValue)
  else
    let rv := s.enterModalState
    let s := { s with trace := s.trace ++ [Effect.EnterModalState], mModalDepth := s.mModalDepth + 1 }
    (some (frameOf api args winid s.mModalDepth, rv), s)

/-- The loop condition `mModalDepth == origModalDepth && NS_SUCCEEDED(rv)`. -/
def waiting (s : EmbedPromptService) (origModalDepth : Int) (rv : nsresult) : Bool :=
  s.mModalDepth == origModalDepth && NS_SUCCEEDED rv

/-- The rest of the loop body once `ProcessNextEvent` has returned `rv` and `processedEvent`:
`if (NS_SUCCEEDED(rv) && (!processedEvent || !CheckWinID())) rv = NS_ERROR_UNEXPECTED`. -/
def afterProcessNextEvent (rv : nsresult) (processedEvent : Bool) (s : EmbedPromptService) :
    nsresult × EmbedPromptService :=
  if NS_SUCCEEDED rv then
    if !processedEvent then (.NS_ERROR_UNEXPECTED, s)
    else
      let r := s.CheckWinID
      if r.1 = 0 then (.NS_ERROR_UNEXPECTED, r.2) else (rv, r.2)
  else (rv, s)

/-- The text after the wait loop (lines 256-277, 341-366, 437-468): remove the listener, take
the entry (NS_ERROR_UNEXPECTED when there is none), write the out-parameters, leave modal state
and the secure context, return NS_OK. -/
def leave (f : Frame) (s : EmbedPromptService) : EmbedPromptService :=
  let s := { s with trace := s.trace ++ [Effect.RemoveMessageListener (messageNames f.api).2] }
  match takeResponse s.mResponseMap f.winid with
  | none => s.ret f .NS_ERROR_UNEXPECTED f.aCheckValue f.aConfirm f.aValue
  | some (r, m) =>
    let s := { s with mResponseMap := m,
                      trace := s.trace ++ [Effect.LeaveModalState, Effect.LeaveSecureJSContext] }
    s.ret f .NS_OK (f.aCheckValue.map (fun _ => r.checkvalue))
      (f.aConfirm.map (fun _ => r.accepted)) (f.aValue.map (fun _ => r.promptvalue))

/-- Control comes back to the innermost wait loop: `ProcessNextEvent` returned `rv` and
`processedEvent` there.  A loop whose condition fails runs its `leave` part and returns into
the handler that called it, whose own `ProcessNextEvent` (one frame out) then returns NS_OK
with an event processed; and so on outwards. -/
def unwind : List Frame → nsresult → Bool → EmbedPromptService → EmbedPromptService × List Frame
  | [], _, _, s => (s, [])
  | f :: rest, rv, processedEvent, s =>
    let r := afterProcessNextEvent rv processedEvent s
    if waiting r.2 f.origModalDepth r.1 then (r.2, f :: rest)
    else unwind rest .NS_OK true (leave f r.2)

end EmbedPromptService

/-- What the thread's event loop does next, as far as an EmbedPromptService can tell. -/
inductive Event
  /-- The call `ProcessNextEvent` returns `rv` and `processedEvent`; nothing touched the service. -/
  | idle (rv : nsresult) (processedEvent : Bool)
  /-- A response message reaches the listener (`none`: not parsable). -/
  | message (msg : Option Root)
  /-- The observer service notifies "outer-window-destroyed". -/
  | outerWindowDestroyed
  /-- The surroundings change: the window id now reported, the window utils now available. -/
  | window (winid : Nat) (utils : Bool)
  /-- A handler calls an entry point of the service. -/
  | call (api : Api) (args : Args)
  deriving DecidableEq, Repr

/-- A service together with its active calls, innermost first. -/
structure PromptConfig where
  svc : EmbedPromptService
  stack : List Frame
  deriving DecidableEq, Repr

namespace PromptConfig

/-- Build a configuration from the pair `unwind` yields. -/
def ofPair (p : EmbedPromptService × List Frame) : PromptConfig := ⟨p.1, p.2⟩

/-- One event of the thread. -/
def step (c : PromptConfig) : Event → PromptConfig
  | .idle rv processedEvent => ofPair (EmbedPromptService.unwind c.stack rv processedEvent c.svc)
  | .message msg =>
    ofPair (EmbedPromptService.unwind c.stack .NS_OK true (c.svc.OnMessageReceived msg).2)
  | .outerWindowDestroyed => ofPair (EmbedPromptService.unwind c.stack .NS_OK true c.svc.Observe)
  | .window winid utils =>
    ofPair (EmbedPromptService.unwind c.stack .NS_OK true
      { c.svc with winid := winid, utils := utils })
  | .call api args =>
    match c.svc.enter api args with
    | (none, s) => ofPair (EmbedPromptService.unwind c.stack .NS_OK true s)
    | (some (f, rv), s) =>
      if s.waiting f.origModalDepth rv then ⟨s, f :: c.stack⟩
      else ofPair (EmbedPromptService.unwind c.stack .NS_OK true (s.leave f))

/-- A sequence of events. -/
def run (c : PromptConfig) (script : List Event) : PromptConfig :=
  script.foldl step c

end PromptConfig

/-- The flag nsIAuthInformation::AUTH_PROXY of the Gecko interface. -/
def AUTH_PROXY : Nat := 2

/-- The flag nsIAuthInformation::NEED_DOMAIN of the Gecko interface. -/
def NEED_DOMAIN : Nat := 4

/-- The flag nsIAuthInformation::ONLY_PASSWORD of the Gecko interface. -/
def ONLY_PASSWORD : Nat := 8

/-- What the code reads from an nsIURI: scheme, host, port (-1 when none is given) and the
default port the protocol handler of the scheme reports (-1 when there is no handler). -/
structure nsIURI where
  scheme : String
  host : String
  port : Int
  handlerPort : Int
  deriving DecidableEq, Repr

/-- An nsIChannel: `uri = none` when `GetURI` fails. -/
structure nsIChannel where
  uri : Option nsIURI
  deriving DecidableEq, Repr

/-- An nsIAuthInformation object: the result of `GetFlags` and the flags, the realm (`none` when
`GetRealm` fails), and the user name, password and domain it holds. -/
structure nsIAuthInformation where
  flagsRv : nsresult
  flags : Nat
  realm : Option String
  username : String
  password : String
  domain : String
  deriving DecidableEq, Repr

/-- The static function getFormattedHostname. -/
def getFormattedHostname (uri : nsIURI) : String :=
  let hostname := uri.scheme ++ "://" ++ uri.host
  if uri.port ≠ -1 ∧ uri.port ≠ uri.handlerPort then hostname ++ ":" ++ toString uri.port
  else hostname

/-- The static function getAuthTarget: host name and realm, or nothing when it fails. -/
def getAuthTarget (aChannel : nsIChannel) (authInfo : nsIAuthInformation) :
    Option (String × String) :=
  match aChannel.uri with
  | none => none
  | some uri =>
    let hostname := getFormattedHostname uri
    match authInfo.realm with
    | none => some (hostname, hostname)
    | some realm => if realm = "" then some (hostname, hostname) else some (hostname, realm)

/-- A C string read back from an nsCString or std::string (`get()`, `c_str()`): the text up to
the first NUL. -/
def cstr (s : String) : String :=
  String.mk (s.data.takeWhile (fun c => c != Char.ofNat 0))

/-- The assignment `asyncPrompts[key] = prompt`.  The keys are std::string values, ordered
as their character sequences are. -/
def setPrompt (m : List (String × Option Nat)) (key : String) (prompt : Option Nat) :
    List (String × Option Nat) :=
  @mapSet String (Option Nat) _ ⟨fun a b => List.lt a.data b.data⟩
    (fun a b => List.hasDecidableLt a.data b.data) m key prompt

/-- The order of the std::string keys of `asyncPrompts`, the one `setPrompt` files them by:
the order of their character sequences. -/
def keyLt (a b : String) : Prop := List.lt a.data b.data

/-- The key order can be computed. -/
instance keyLt_decidable (a b : String) : Decidable (keyLt a b) :=
  List.hasDecidableLt a.data b.data

/-- The key `hashKey` that AsyncPromptAuth builds (lines 684-689). -/
def hashKey (level : Nat) (hostname httpRealm : String) : String :=
  toString level ++ "|" ++ hostname ++ "|" ++ httpRealm

/-- The number that a decimal numeral denotes: what reads the level back from the digits that
`AppendInt` has written. -/
def decimalValue (l : List Char) : Nat :=
  l.foldl (fun a c => 10 * a + (c.toNat - 48)) 0

/-- The class nsAuthCancelableConsumer: a callback pointer and a context pointer. -/
structure nsAuthCancelableConsumer where
  mCallback : Option Nat
  mContext : Option Nat
  deriving DecidableEq, Repr

/-- A call made on a waiter's nsIAuthPromptCallback. -/
inductive Notification
  | OnAuthAvailable (callback : Nat) (context : Option Nat) (authInfo : nsIAuthInformation)
  | OnAuthCancelled (callback : Nat) (context : Option Nat) (userCancel : Bool)
  deriving DecidableEq, Repr

/-- The callback object that a notification was made on. -/
def Notification.callback : Notification → Nat
  | .OnAuthAvailable callback _ _ => callback
  | .OnAuthCancelled callback _ _ => callback

/-- Modelled from the spec: the class EmbedAsyncAuthPrompt is declared in
EmbedPromptService.h, which is not among the sources.  The fields are those the code reads and
writes: the waiters (pointers to consumers), channel, auth information, level, the in-progress
mark, the owner window (0 when null) and the key.  The constructor call
`EmbedAsyncAuthPrompt(consumer, aChannel, authInfo, level, false)` is taken to make the consumer
the sole waiter and to leave the request not in progress, which is what the spec says of a new
CoalescedRequest.  `freed` is set by `delete`. -/
structure EmbedAsyncAuthPrompt where
  consumers : List Nat
  mChannel : nsIChannel
  mAuthInfo : nsIAuthInformation
  mLevel : Nat
  mInProgress : Bool
  mWin : Nat
  mHashKey : String
  freed : Bool
  deriving DecidableEq, Repr

/-- The arguments of AsyncPromptAuth. -/
structure AuthRequest where
  aChannel : nsIChannel
  aCallback : Option Nat
  aContext : Option Nat
  level : Nat
  authInfo : nsIAuthInformation
  deriving DecidableEq, Repr

/-- The pending set and what hangs on it.
* `prompts`, `nextPrompt`: the EmbedAsyncAuthPrompt objects by address, and the next free address;
* `consumers`, `nextConsumer`: the same for nsAuthCancelableConsumer objects;
* `asyncPrompts`: the map from key to prompt pointer;
* `asyncPromptInProgress`: the map from owner window to its busy flag;
* `eventQueue`: the EmbedAuthRunnable objects dispatched to the thread and not yet run, each
  given by the prompt it points to, oldest first;
* `notifications`: the callback calls made so far, oldest first. -/
structure AsyncQueue where
  prompts : Nat → EmbedAsyncAuthPrompt
  nextPrompt : Nat
  consumers : Nat → nsAuthCancelableConsumer
  nextConsumer : Nat
  asyncPrompts : List (String × Option Nat)
  asyncPromptInProgress : List (Nat × Bool)
  eventQueue : List Nat
  notifications : List Notification

namespace AsyncQueue

/-- The queue of a process that has not asked for authentication yet. -/
def empty : AsyncQueue :=
  ⟨fun _ => ⟨[], ⟨none⟩, ⟨.NS_OK, 0, none, "", "", ""⟩, 0, false, 0, "", false⟩, 0,
   fun _ => ⟨none, none⟩, 0, [], [], [], []⟩

/-- The map read `asyncPrompts[key]`: a null pointer when the key is absent. -/
def promptAt (q : AsyncQueue) (key : String) : Option Nat :=
  (mapFind q.asyncPrompts key).getD none

/-- The map read `asyncPromptInProgress[win]`: false when the window is absent. -/
def busy (q : AsyncQueue) (win : Nat) : Bool :=
  (mapFind q.asyncPromptInProgress win).getD false

/-- The scan of DoAsyncPrompt (lines 840-850): the key of the first entry, in key order, whose
prompt is non-null and whose owner has no prompt in progress; empty when there is none. -/
def findAvailable (q : AsyncQueue) : List (String × Option Nat) → String
  | [] => ""
  | (key, asyncPrompt) :: rest =>
    match asyncPrompt with
    | some p => if !q.busy (q.prompts p).mWin then cstr key else findAvailable q rest
    | none => findAvailable q rest

/-- `EmbedAuthPromptService::DoAsyncPrompt`.  `Dispatch` is taken to succeed (its failure only
logs a warning).  The read `asyncPrompts[hashKey.get()]` finds the entry the scan stopped at;
were it null the C++ would dereference null, the embedding then leaves the queue as it is. -/
def DoAsyncPrompt (q : AsyncQueue) : AsyncQueue :=
  let hashKey := q.findAvailable q.asyncPrompts
  if hashKey = "" then q
  else
    match q.promptAt (cstr hashKey) with
    | none => q
    | some p =>
      let asyncPrompt := q.prompts p
      match getAuthTarget asyncPrompt.mChannel asyncPrompt.mAuthInfo with
      | none => q
      | some _ =>
        { q with
          asyncPromptInProgress :=
            if asyncPrompt.mWin ≠ 0 then mapSet q.asyncPromptInProgress asyncPrompt.mWin true
            else q.asyncPromptInProgress,
          prompts := Function.update q.prompts p { asyncPrompt with mInProgress := true },
          eventQueue := q.eventQueue ++ [p] }

/-- `EmbedAuthPromptService::AsyncPromptAuth`, called on a service whose window is `mWin`.
Returns the nsresult and what was stored through `_retval` (`none`: nothing was stored). -/
def AsyncPromptAuth (mWin : Nat) (r : AuthRequest) (q : AsyncQueue) :
    (nsresult × Option Nat) × AsyncQueue :=
  if NS_FAILED r.authInfo.flagsRv then ((r.authInfo.flagsRv, none), q)
  else if r.authInfo.flags &&& AUTH_PROXY ≠ 0 ∧ r.authInfo.flags &&& ONLY_PASSWORD ≠ 0 then
    ((.NS_ERROR_FAILURE, none), q)
  else
    let consumer := q.nextConsumer
    let q := { q with
      consumers := Function.update q.consumers consumer ⟨r.aCallback, r.aContext⟩,
      nextConsumer := consumer + 1 }
    match getAuthTarget r.aChannel r.authInfo with
    | none => ((.NS_ERROR_FAILURE, none), q)
    | some (hostname, httpRealm) =>
      let key := hashKey r.level hostname httpRealm
      match q.promptAt (cstr key) with
      | some p =>
        let asyncPrompt := q.prompts p
        let asyncPrompt := { asyncPrompt with consumers := asyncPrompt.consumers ++ [consumer] }
        ((.NS_OK, some consumer), { q with prompts := Function.update q.prompts p asyncPrompt })
      | none =>
        let p := q.nextPrompt
        let asyncPrompt : EmbedAsyncAuthPrompt :=
          ⟨[consumer], r.aChannel, r.authInfo, r.level, false, mWin, key, false⟩
        let q := { q with
          prompts := Function.update q.prompts p asyncPrompt,
          nextPrompt := p + 1,
          asyncPrompts := setPrompt q.asyncPrompts (cstr key) (some p) }
        ((.NS_OK, none), q.DoAsyncPrompt)

/-- The user name and password filled into the auth information (lines 888-905): with
NEED_DOMAIN a user name "domain, backslash, name" is split at its first backslash. -/
def fillAuthInfo (authInfo : nsIAuthInformation) (username password : String) :
    nsIAuthInformation :=
  let authInfo :=
    if username = "" then authInfo
    else if authInfo.flags &&& NEED_DOMAIN ≠ 0 then
      match username.data.span (fun c => c != Char.ofNat 92) with
      | (_, []) => { authInfo with username := username }
      | (domain, _ :: name) =>
        { authInfo with domain := String.mk domain, username := String.mk name }
    else { authInfo with username := username }
  if password = "" then authInfo else { authInfo with password := password }

/-- The loop over `prompt->consumers` (lines 907-921): a consumer whose callback is null is
skipped, every other one gets OnAuthAvailable or OnAuthCancelled. -/
def notifyConsumers (confirmed : Bool) (authInfo : nsIAuthInformation)
    (consumers : Nat → nsAuthCancelableConsumer) : List Nat → List Notification
  | [] => []
  | c :: rest =>
    match (consumers c).mCallback with
    | none => notifyConsumers confirmed authInfo consumers rest
    | some callback =>
      (if confirmed then Notification.OnAuthAvailable callback (consumers c).mContext authInfo
       else Notification.OnAuthCancelled callback (consumers c).mContext true)
        :: notifyConsumers confirmed authInfo consumers rest

/-- `EmbedAuthPromptService::DoResponseAsyncPrompt` for the prompt at address `p`. -/
def DoResponseAsyncPrompt (p : Nat) (confirmed : Bool) (username password : String)
    (q : AsyncQueue) : AsyncQueue :=
  let prompt := q.prompts p
  let q := { q with
    asyncPrompts := mapErase q.asyncPrompts (cstr prompt.mHashKey),
    prompts := Function.update q.prompts p { prompt with mInProgress := false },
    asyncPromptInProgress :=
      if prompt.mWin ≠ 0 then mapErase q.asyncPromptInProgress prompt.mWin
      else q.asyncPromptInProgress }
  if NS_FAILED prompt.mAuthInfo.flagsRv then q
  else
    let authInfo := fillAuthInfo prompt.mAuthInfo username password
    let filled := { prompt with mInProgress := false, mAuthInfo := authInfo }
    let q := { q with
      prompts := Function.update q.prompts p filled,
      notifications :=
        q.notifications ++ notifyConsumers confirmed authInfo q.consumers prompt.consumers }
    q.DoAsyncPrompt

/-- `nsAuthCancelableConsumer::Cancel` on the consumer at address `c`. -/
def Cancel (c : Nat) (reason : nsresult) (q : AsyncQueue) : nsresult × AsyncQueue :=
  if !NS_FAILED reason then (.NS_ERROR_INVALID_ARG, q)
  else
    let consumer := q.consumers c
    let notifications :=
      match consumer.mCallback with
      | some callback =>
        q.notifications ++ [Notification.OnAuthCancelled callback consumer.mContext false]
      | none => q.notifications
    (.NS_OK, { q with notifications := notifications,
                      consumers := Function.update q.consumers c ⟨none, none⟩ })

end AsyncQueue

/-! ## EmbedAuthPromptService -/

/-- What a finished call on the auth service handed back. -/
inductive AuthReturn
  | DoSendAsyncPrompt (mPrompt : Nat) (rv : nsresult)
  | AsyncPromptAuth (rv : nsresult) (retval : Option Nat)
  | Cancel (consumer : Nat) (rv : nsresult)
  deriving DecidableEq, Repr

/-- An active DoSendAsyncPrompt that sits in its wait loop: the prompt it serves and its locals
`winid`, `origModalDepth`, `hostname`, `httpRealm`, `username`, `password`. -/
structure AuthFrame where
  mPrompt : Nat
  winid : Nat
  origModalDepth : Int
  hostname : String
  httpRealm : String
  username : String
  password : String
  deriving DecidableEq, Repr

/-- One EmbedAuthPromptService object, the pending set, the part of the surroundings the code
consults, and what it has done so far.
* `mWin` (0 when null), `mModalDepth`, `mResponseMap`, `mOuterService` (non-null or not): the
  members; `observing`: the outer observer is registered;
* `crashed`: a null `mOuterService` has been dereferenced (CheckWinID does not test it);
* `queue`: the pending set;
* `windowIds`: what `GetIDByWindow` reports, window by window (0 for a window not listed);
* `logins`: the content of the login manager; `createLoginInfo`: the result of creating an
  nsILoginInfo instance;
* `trace`, `returned`: the collaborator calls made and the calls finished, oldest first. -/
structure EmbedAuthPromptService where
  mWin : Nat
  mModalDepth : Int
  mResponseMap : List (Nat × EmbedPromptResponse)
  mOuterService : Bool
  observing : Bool
  crashed : Bool
  queue : AsyncQueue
  windowIds : List (Nat × Nat)
  logins : List nsILoginInfo
  createLoginInfo : nsresult
  trace : List Effect
  returned : List AuthReturn

namespace EmbedAuthPromptService

/-- A service as its constructor leaves it, for window `mWin` with id `winid`, with an empty
pending set and login manager.  The constructor does not set `mModalDepth`; `depth` is the
value it happens to hold. -/
def create (mWin winid : Nat) (depth : Int) : EmbedAuthPromptService :=
  ⟨mWin, depth, [], true, true, false, AsyncQueue.empty, [(mWin, winid)], [], .NS_OK, [], []⟩

/-- The call `mService->GetIDByWindow(win, &winid)`. -/
def GetIDByWindow (s : EmbedAuthPromptService) (win : Nat) : Nat :=
  (mapFind s.windowIds win).getD 0

/-- The call `loginMgr->FindLogins(.., hostname, "", httpRealm, ..)`. -/
def FindLogins (s : EmbedAuthPromptService) (hostname httpRealm : String) : List nsILoginInfo :=
  s.logins.filter (fun l => l.hostname = hostname ∧ l.httpRealm = httpRealm)

/-- `EmbedPromptOuterObserver::OnDestroy`. -/
def OnDestroy (s : EmbedAuthPromptService) : EmbedAuthPromptService :=
  { s with observing := false, trace := s.trace ++ [Effect.RemoveObserver] }

/-- `EmbedAuthPromptService::CancelResponse`: one decrement per entry of the response map. -/
def CancelResponse (s : EmbedAuthPromptService) : EmbedAuthPromptService :=
  { s with mModalDepth := s.mResponseMap.foldl (fun d _ => d - 1) s.mModalDepth }

/-- `EmbedAuthPromptService::OnDestroyNotification`. -/
def OnDestroyNotification (s : EmbedAuthPromptService) : EmbedAuthPromptService :=
  s.CancelResponse

/-- `EmbedPromptOuterObserver::Observe` for the topic "outer-window-destroyed"; the observer
service calls it only while the observer is alive and registered. -/
def Observe (s : EmbedAuthPromptService) : EmbedAuthPromptService :=
  if s.mOuterService && s.observing then s.OnDestroy.OnDestroyNotification else s

/-- `EmbedAuthPromptService::OnMessageReceived`; `message = none` is a text `ParseJSON`
rejects. -/
def OnMessageReceived (message : Option Root) (s : EmbedAuthPromptService) :
    nsresult × EmbedAuthPromptService :=
  match message with
  | none => (.NS_ERROR_FAILURE, s)
  | some root =>
    let winid := root.winid.getD 0
    match mapFind s.mResponseMap winid with
    | none => (.NS_ERROR_FAILURE, s)
    | some response =>
      let response := { response with
        accepted := root.accepted.getD response.accepted,
        dontsave := root.dontsave.getD response.dontsave,
        username := root.username.getD response.username,
        password := root.password.getD response.password }
      (.NS_OK, { s with mResponseMap := mapSet s.mResponseMap winid response,
                        mModalDepth := s.mModalDepth - 1 })

/-- `EmbedAuthPromptService::CheckWinID`: unlike the other CheckWinID it calls
`mOuterService->OnDestroy()` without testing the pointer. -/
def CheckWinID (s : EmbedAuthPromptService) : Nat × EmbedAuthPromptService :=
  let winid := s.GetIDByWindow s.mWin
  if winid = 0 then
    if s.mOuterService then (winid, { s.OnDestroy with mOuterService := false })
    else (winid, { s with crashed := true })
  else (winid, s)

/-- Record that a call has returned. -/
def ret (s : EmbedAuthPromptService) (r : AuthReturn) : EmbedAuthPromptService :=
  { s with returned := s.returned ++ [r] }

/-- The statement `delete mPrompt` of EmbedAuthRunnable::Run. -/
def deletePrompt (s : EmbedAuthPromptService) (p : Nat) : EmbedAuthPromptService :=
  { s with queue := { s.queue with
      prompts := Function.update s.queue.prompts p { s.queue.prompts p with freed := true } } }

/-- The user name and password that lines 722-733 leave in the locals: the user name of the
auth information and an empty password, each overwritten by every stored login in turn. -/
def prefill (authInfo : nsIAuthInformation) (logins : List nsILoginInfo) : String × String :=
  logins.foldl (fun _ l => (l.username, l.password)) (authInfo.username, "")

/-- The text of DoSendAsyncPrompt from the top to the head of the wait loop (lines 710-763).
Yields the frame of the call, or nothing when the call has already returned with an error.
The loop starts with the successful `rv` of `GetFlags`. -/
def DoSendAsyncPrompt_enter (mPrompt : Nat) (s : EmbedAuthPromptService) :
    Option AuthFrame × EmbedAuthPromptService :=
  let prompt := s.queue.prompts mPrompt
  if prompt.mWin = 0 then (none, s.ret (.DoSendAsyncPrompt mPrompt .NS_ERROR_FAILURE))
  else
    match getAuthTarget prompt.mChannel prompt.mAuthInfo with
    | none => (none, s.ret (.DoSendAsyncPrompt mPrompt .NS_ERROR_FAILURE))
    | some (hostname, httpRealm) =>
      if NS_FAILED prompt.mAuthInfo.flagsRv then
        (none, s.ret (.DoSendAsyncPrompt mPrompt prompt.mAuthInfo.flagsRv))
      else
        let filled := prefill prompt.mAuthInfo (s.FindLogins hostname httpRealm)
        let winid := s.GetIDByWindow prompt.mWin
        let s := { s with
          mResponseMap := mapSet s.mResponseMap winid EmbedPromptResponse.fresh,
          trace := s.trace ++ [Effect.SendAsyncMessage winid "embed:auth",
                               Effect.AddMessageListener "authresponse"],
          mModalDepth := s.mModalDepth + 1 }
        (some ⟨mPrompt, winid, s.mModalDepth, hostname, httpRealm, filled.1, filled.2⟩, s)

/-- The loop condition `mModalDepth == origModalDepth && NS_SUCCEEDED(rv)`. -/
def waiting (s : EmbedAuthPromptService) (origModalDepth : Int) (rv : nsresult) : Bool :=
  s.mModalDepth == origModalDepth && NS_SUCCEEDED rv

/-- The rest of the loop body once `ProcessNextEvent` has returned `rv` and `processedEvent`:
`if (NS_SUCCEEDED(rv) && (!processedEvent || !CheckWinID())) rv = NS_ERROR_UNEXPECTED`. -/
def afterProcessNextEvent (rv : nsresult) (processedEvent : Bool) (s : EmbedAuthPromptService) :
    nsresult × EmbedAuthPromptService :=
  if NS_SUCCEEDED rv then
    if !processedEvent then (.NS_ERROR_UNEXPECTED, s)
    else
      let r := s.CheckWinID
      if r.1 = 0 then (.NS_ERROR_UNEXPECTED, r.2) else (rv, r.2)
  else (rv, s)

/-- Lines 781-798: remove the stored logins of the target, then add the login of the
response; an error return when no nsILoginInfo instance can be created. -/
def storeLogin (f : AuthFrame) (r : EmbedPromptResponse) (s : EmbedAuthPromptService) :
    Option nsresult × EmbedAuthPromptService :=
  let old := s.FindLogins f.hostname f.httpRealm
  let s := { s with
    logins := s.logins.filter (fun l => decide (l ∉ old)),
    trace := s.trace ++ old.map Effect.RemoveLogin }
  if NS_FAILED s.createLoginInfo then (some s.createLoginInfo, s)
  else
    let loginInfo : nsILoginInfo := ⟨f.hostname, f.httpRealm, r.username, r.password⟩
    (none, { s with logins := s.logins ++ [loginInfo],
                    trace := s.trace ++ [Effect.AddLogin loginInfo] })

/-- The text of DoSendAsyncPrompt after the wait loop (lines 770-805). -/
def DoSendAsyncPrompt_leave (f : AuthFrame) (s : EmbedAuthPromptService) :
    EmbedAuthPromptService :=
  let s := { s with trace := s.trace ++ [Effect.RemoveMessageListener "authresponse"] }
  match mapFind s.mResponseMap f.winid with
  | none => s.ret (.DoSendAsyncPrompt f.mPrompt .NS_ERROR_UNEXPECTED)
  | some r =>
    let stored :=
      if !r.accepted then (none, s)
      else if !(f.username = r.username ∧ f.password = r.password) ∧ !r.dontsave then
        storeLogin f r s
      else (none, s)
    match stored with
    | (some rv, s) => s.ret (.DoSendAsyncPrompt f.mPrompt rv)
    | (none, s) =>
      let s := { s with
        queue := s.queue.DoResponseAsyncPrompt f.mPrompt r.accepted r.username r.password }
      let s := { s with mResponseMap := mapErase s.mResponseMap f.winid }
      s.ret (.DoSendAsyncPrompt f.mPrompt .NS_OK)

/-- `EmbedAuthRunnable::Run` once its DoSendAsyncPrompt has left the wait loop: the rest of
DoSendAsyncPrompt, then `delete mPrompt`. -/
def Run_leave (f : AuthFrame) (s : EmbedAuthPromptService) : EmbedAuthPromptService :=
  (s.DoSendAsyncPrompt_leave f).deletePrompt f.mPrompt

/-- Control comes back to the innermost wait loop: `ProcessNextEvent` returned `rv` and
`processedEvent` there.  A loop whose condition fails finishes its call and returns into the
event loop one frame out, whose `ProcessNextEvent` then returns NS_OK with an event processed;
and so on outwards.  Nothing runs any more once the service has crashed. -/
def unwind : List AuthFrame → nsresult → Bool → EmbedAuthPromptService →
    EmbedAuthPromptService × List AuthFrame
  | [], _, _, s => (s, [])
  | f :: rest, rv, processedEvent, s =>
    let r := afterProcessNextEvent rv processedEvent s
    if r.2.crashed then (r.2, f :: rest)
    else if waiting r.2 f.origModalDepth r.1 then (r.2, f :: rest)
    else unwind rest .NS_OK true (r.2.Run_leave f)

end EmbedAuthPromptService

/-- What the thread's event loop does next, as far as an EmbedAuthPromptService can tell. -/
inductive AuthEvent
  /-- The call `ProcessNextEvent` returns `rv` and `processedEvent`; nothing touched the service. -/
  | idle (rv : nsresult) (processedEvent : Bool)
  /-- A response message reaches the listener (`none`: not parsable). -/
  | message (msg : Option Root)
  /-- The observer service notifies "outer-window-destroyed". -/
  | outerWindowDestroyed
  /-- The surroundings change: `GetIDByWindow` now reports `winid` for window `win`. -/
  | window (win winid : Nat)
  /-- The oldest dispatched EmbedAuthRunnable runs. -/
  | runnable
  /-- A handler calls AsyncPromptAuth on the service. -/
  | asyncPromptAuth (r : AuthRequest)
  /-- A handler calls Cancel on the consumer at address `consumer`. -/
  | cancel (consumer : Nat) (reason : nsresult)
  deriving DecidableEq, Repr

/-- An auth service together with its active DoSendAsyncPrompt calls, innermost first. -/
structure AuthConfig where
  svc : EmbedAuthPromptService
  stack : List AuthFrame

namespace AuthConfig

/-- Build a configuration from the pair `unwind` yields. -/
def ofPair (p : EmbedAuthPromptService × List AuthFrame) : AuthConfig := ⟨p.1, p.2⟩

/-- `EmbedAuthRunnable::Run` for the prompt at `p`, up to the wait loop of DoSendAsyncPrompt
or, when that returns at once, to the end of Run. -/
def Run (c : AuthConfig) (p : Nat) : AuthConfig :=
  match c.svc.DoSendAsyncPrompt_enter p with
  | (none, s) => ofPair (EmbedAuthPromptService.unwind c.stack .NS_OK true (s.deletePrompt p))
  | (some f, s) => ⟨s, f :: c.stack⟩

/-- One event of the thread. -/
def step (c : AuthConfig) (e : AuthEvent) : AuthConfig :=
  if c.svc.crashed then c
  else
    match e with
    | .idle rv processedEvent =>
      ofPair (EmbedAuthPromptService.unwind c.stack rv processedEvent c.svc)
    | .message msg =>
      ofPair (EmbedAuthPromptService.unwind c.stack .NS_OK true (c.svc.OnMessageReceived msg).2)
    | .outerWindowDestroyed =>
      ofPair (EmbedAuthPromptService.unwind c.stack .NS_OK true c.svc.Observe)
    | .window win winid =>
      ofPair (EmbedAuthPromptService.unwind c.stack .NS_OK true
        { c.svc with windowIds := mapSet c.svc.windowIds win winid })
    | .runnable =>
      match c.svc.queue.eventQueue with
      | [] => ofPair (EmbedAuthPromptService.unwind c.stack .NS_OK true c.svc)
      | p :: rest =>
        Run ⟨{ c.svc with queue := { c.svc.queue with eventQueue := rest } }, c.stack⟩ p
    | .asyncPromptAuth r =>
      let res := c.svc.queue.AsyncPromptAuth c.svc.mWin r
      ofPair (EmbedAuthPromptService.unwind c.stack .NS_OK true
        ({ c.svc with queue := res.2 }.ret (.AsyncPromptAuth res.1.1 res.1.2)))
    | .cancel consumer reason =>
      let res := c.svc.queue.Cancel consumer reason
      ofPair (EmbedAuthPromptService.unwind c.stack .NS_OK true
        ({ c.svc with queue := res.2 }.ret (.Cancel consumer res.1)))

/-- A sequence of events. -/
def run (c : AuthConfig) (script : List AuthEvent) : AuthConfig :=
  script.foldl step c

end AuthConfig

/-! ## Notions used to state the claims on the queue -/

namespace AsyncQueue

/-- The requests submitted one after the other through AsyncPromptAuth, on a service whose
window is `mWin`. -/
def submitAll (mWin : Nat) (rs : List AuthRequest) (q : AsyncQueue) : AsyncQueue :=
  rs.foldl (fun q r => (q.AsyncPromptAuth mWin r).2) q

/-- The map key under which AsyncPromptAuth files a request: nothing for a request it rejects
(flags not readable, proxy with password only, no auth target). -/
def requestKey (r : AuthRequest) : Option String :=
  if NS_FAILED r.authInfo.flagsRv then none
  else if r.authInfo.flags &&& AUTH_PROXY ≠ 0 ∧ r.authInfo.flags &&& ONLY_PASSWORD ≠ 0 then none
  else (getAuthTarget r.aChannel r.authInfo).map (fun t => cstr (hashKey r.level t.1 t.2))

/-- The notification a waiter gets when its request completes. -/
def outcome (confirmed : Bool) (authInfo : nsIAuthInformation) (r : AuthRequest) : Notification :=
  if confirmed then .OnAuthAvailable (r.aCallback.getD 0) r.aContext authInfo
  else .OnAuthCancelled (r.aCallback.getD 0) r.aContext true

/-- The state of the pending set while requests coalesce on the prompt that the first of them
created at address `q0.nextPrompt`, in a pending set that was `q0` before. -/
structure Coalescing (mWin : Nat) (q0 q : AsyncQueue) (key : String) (first : AuthRequest)
    (xs : List AuthRequest) : Prop where
  asyncPrompts : q.asyncPrompts = setPrompt q0.asyncPrompts key (some q0.nextPrompt)
  busyMap : q.asyncPromptInProgress =
    if mWin ≠ 0 then mapSet q0.asyncPromptInProgress mWin true else q0.asyncPromptInProgress
  eventQueue : q.eventQueue = q0.eventQueue ++ [q0.nextPrompt]
  notifications : q.notifications = q0.notifications
  others : ∀ p, p < q0.nextPrompt → q.prompts p = q0.prompts p
  mAuthInfo : (q.prompts q0.nextPrompt).mAuthInfo = first.authInfo
  mHashKey : cstr (q.prompts q0.nextPrompt).mHashKey = key
  owner : (q.prompts q0.nextPrompt).mWin = mWin
  allocated : ∀ w ∈ (q.prompts q0.nextPrompt).consumers, w < q.nextConsumer
  notify : ∀ confirmed authInfo,
    notifyConsumers confirmed authInfo q.consumers (q.prompts q0.nextPrompt).consumers =
      xs.map (outcome confirmed authInfo)

/-- Well-formedness of the pending set. -/
structure Inv (q : AsyncQueue) : Prop where
  valid : ∀ e ∈ q.asyncPrompts, ∃ p, e.2 = some p ∧ p < q.nextPrompt ∧
    cstr (q.prompts p).mHashKey = e.1
  nodup : (q.asyncPrompts.map Prod.fst).Nodup
  busyOwner : ∀ e ∈ q.asyncPrompts, ∀ p, e.2 = some p → (q.prompts p).mInProgress = true →
    (q.prompts p).mWin ≠ 0 → q.busy (q.prompts p).mWin = true
  single : ∀ e1 ∈ q.asyncPrompts, ∀ e2 ∈ q.asyncPrompts, ∀ p1 p2, e1.2 = some p1 →
    e2.2 = some p2 → (q.prompts p1).mInProgress = true → (q.prompts p2).mInProgress = true →
    (q.prompts p1).mWin = (q.prompts p2).mWin → (q.prompts p1).mWin ≠ 0 → p1 = p2

/-- The queue after DoAsyncPrompt has promoted the prompt at `p`. -/
def promoted (q : AsyncQueue) (p : Nat) : AsyncQueue :=
  { q with
    asyncPromptInProgress :=
      if (q.prompts p).mWin ≠ 0 then mapSet q.asyncPromptInProgress (q.prompts p).mWin true
      else q.asyncPromptInProgress,
    prompts := Function.update q.prompts p { q.prompts p with mInProgress := true },
    eventQueue := q.eventQueue ++ [p] }

/-- The prompt at `p` is in the pending set. -/
def Pending (q : AsyncQueue) (p : Nat) : Prop :=
  ∃ e ∈ q.asyncPrompts, e.2 = some p

/-- The queue once DoResponseAsyncPrompt has removed the prompt at `p` (lines 878-882). -/
def removed (q : AsyncQueue) (p : Nat) : AsyncQueue :=
  { q with
    asyncPrompts := mapErase q.asyncPrompts (cstr (q.prompts p).mHashKey),
    prompts := Function.update q.prompts p { q.prompts p with mInProgress := false },
    asyncPromptInProgress :=
      if (q.prompts p).mWin ≠ 0 then mapErase q.asyncPromptInProgress (q.prompts p).mWin
      else q.asyncPromptInProgress }

/-- The queue once AsyncPromptAuth has filed a new prompt under `key` (lines 698-702). -/
def inserted (q : AsyncQueue) (key : String) (prompt : EmbedAsyncAuthPrompt) : AsyncQueue :=
  { q with
    prompts := Function.update q.prompts q.nextPrompt prompt,
    nextPrompt := q.nextPrompt + 1,
    asyncPrompts := setPrompt q.asyncPrompts key (some q.nextPrompt) }

/-- The prompt at `p` is pending, its owner has no prompt in progress, and its key is the least
among the keys of the pending prompts whose owner has none in progress. -/
def LeastAvailable (q : AsyncQueue) (p : Nat) : Prop :=
  ∃ key, (key, some p) ∈ q.asyncPrompts ∧ q.busy (q.prompts p).mWin = false ∧
    ∀ e ∈ q.asyncPrompts, ∀ p', e.2 = some p' → q.busy (q.prompts p').mWin = false →
      e = (key, some p) ∨ keyLt key e.1

/-- The states of the pending set that can be reached from the empty one through
AsyncPromptAuth (on a service of any window), DoAsyncPrompt, DoResponseAsyncPrompt and Cancel.
DoResponseAsyncPrompt is called by DoSendAsyncPrompt only, for the prompt of a dispatched
runnable: a prompt that is in the pending set and marked in progress. -/
inductive Reachable : AsyncQueue → Prop
  | empty : Reachable AsyncQueue.empty
  | submit (q : AsyncQueue) (mWin : Nat) (r : AuthRequest) :
      Reachable q → Reachable (q.AsyncPromptAuth mWin r).2
  | promote (q : AsyncQueue) : Reachable q → Reachable q.DoAsyncPrompt
  | respond (q : AsyncQueue) (p : Nat) (confirmed : Bool) (username password : String) :
      Reachable q → Pending q p → (q.prompts p).mInProgress = true →
      Reachable (q.DoResponseAsyncPrompt p confirmed username password)
  | cancel (q : AsyncQueue) (c : Nat) (reason : nsresult) :
      Reachable q → Reachable (q.Cancel c reason).2

end AsyncQueue

/-! ## Notions used to state the claims on the collaborator calls -/

/-- The number of `AddMessageListener` calls for the message `name` in a trace. -/
def listenersAdded (name : String) (trace : List Effect) : Nat :=
  trace.count (Effect.AddMessageListener name)

/-- The number of `RemoveMessageListener` calls for the message `name` in a trace. -/
def listenersRemoved (name : String) (trace : List Effect) : Nat :=
  trace.count (Effect.RemoveMessageListener name)

/-- The calls in a trace that change the content of the login manager: `RemoveLogin` and
`AddLogin`. -/
def loginCalls (trace : List Effect) : List Effect :=
  trace.filter (fun e =>
    match e with
    | .RemoveLogin _ => true
    | .AddLogin _ => true
    | _ => false)

/-! ## Concrete scenarios -/

namespace Scenario

/-- A fresh EmbedPromptService for a window with id 5, no call active. -/
def service5 : PromptConfig := ⟨EmbedPromptService.create 5, []⟩

/-- A call that passes null for every pointer. -/
def noArgs : Args := ⟨none, none, none⟩

/-- A call that passes a check value, a confirm value and a text, all set. -/
def allArgs : Args := ⟨some true, some true, some "old"⟩

/-- A response message for window id `k` that carries every property. -/
def response (k : Nat) (accepted checkvalue : Bool) (promptvalue : String) : Event :=
  .message (some ⟨some k, some accepted, some checkvalue, some false, some promptvalue,
    some "user", some "secret"⟩)

/-- A channel to http://example.com on the default port. -/
def channel : nsIChannel := ⟨some ⟨"http", "example.com", -1, 80⟩⟩

/-- Auth information for the realm "realm1", flags AUTH_HOST. -/
def authInfo : nsIAuthInformation := ⟨.NS_OK, 1, some "realm1", "", "", ""⟩

/-- An auth request on `channel` for "realm1" whose waiter has callback `cb` and context
`100 + cb`. -/
def request (cb : Nat) : AuthRequest := ⟨channel, some cb, some (100 + cb), 0, authInfo⟩

/-- A fresh EmbedAuthPromptService for window 7, whose id is 42; no call active. -/
def authService : AuthConfig := ⟨EmbedAuthPromptService.create 7 42 0, []⟩

/-- A response message for window id `k` with the credentials "user" / "secret". -/
def authResponse (k : Nat) (accepted : Bool) : AuthEvent :=
  .message (some ⟨some k, some accepted, none, some false, none, some "user", some "secret"⟩)

/-- An auth request with another key: level 1 instead of 0. -/
def otherRequest : AuthRequest := ⟨channel, some 9, some 109, 1, authInfo⟩

/-- The pending set after window 1 has submitted `request 1` and window 2 `otherRequest`. -/
def twoOwners : AsyncQueue :=
  ((AsyncQueue.empty.AsyncPromptAuth 1 (request 1)).2.AsyncPromptAuth 2 otherRequest).2

/-- A fresh EmbedAuthPromptService built for a null window. -/
def nullWindow : AuthConfig := ⟨EmbedAuthPromptService.create 0 42 0, []⟩

/-- A fresh EmbedAuthPromptService for window 7 (id 42) in surroundings where no nsILoginInfo
instance can be created. -/
def noLoginInfo : AuthConfig :=
  ⟨{ EmbedAuthPromptService.create 7 42 0 with createLoginInfo := .NS_ERROR_FAILURE }, []⟩

/-- A fresh EmbedPromptService for a window with id 5 that does not yield the window utils. -/
def noUtils : PromptConfig := ⟨{ EmbedPromptService.create 5 with utils := false }, []⟩

/-- A call that passes a confirm variable holding true and null for the other pointers. -/
def confirmTrue : Args := ⟨none, some true, none⟩

/-- An auth request for "realm1" on the host `host`, whose waiter has callback `cb`. -/
def requestFor (host : String) (cb : Nat) : AuthRequest :=
  ⟨⟨some ⟨"http", host, -1, 80⟩⟩, some cb, some (100 + cb), 0, authInfo⟩

/-- The pending set after window 7 has submitted requests for the hosts c.example, b.example
and a.example, in this order: the prompts at the addresses 0, 1 and 2. -/
def threeHosts : AsyncQueue :=
  (((AsyncQueue.empty.AsyncPromptAuth 7 (requestFor "c.example" 1)).2.AsyncPromptAuth 7
    (requestFor "b.example" 2)).2.AsyncPromptAuth 7 (requestFor "a.example" 3)).2

/-- An auth request at level 0 for the realm "c" on a channel whose host reads "a|b". -/
def barInHost : AuthRequest :=
  ⟨⟨some ⟨"http", "a|b", -1, 80⟩⟩, some 1, some 101, 0, ⟨.NS_OK, 1, some "c", "", "", ""⟩⟩

/-- An auth request at level 0 for the realm "b|c" on a channel whose host reads "a". -/
def barInRealm : AuthRequest :=
  ⟨⟨some ⟨"http", "a", -1, 80⟩⟩, some 2, some 102, 0, ⟨.NS_OK, 1, some "b|c", "", "", ""⟩⟩

end Scenario

/-! ## Lemmas on the maps -/

section MapLemmas
variable {κ α : Type} [DecidableEq κ]

theorem mapFind_mapSet_self [LT κ] [DecidableRel (fun a b : κ => a < b)]
    (m : List (κ × α)) (k : κ) (v : α) :
    mapFind (mapSet m k v) k = some v := by
  induction m with
  | nil => simp [mapSet, mapFind]
  | cons e rest ih =>
    obtain ⟨k', v'⟩ := e
    by_cases h1 : k' = k
    · simp [mapSet, mapFind, h1]
    · by_cases h2 : k < k'
      · simp [mapSet, mapFind, h1, h2]
      · simp [mapSet, mapFind, h1, h2, ih]

theorem mapFind_mapSet_ne [LT κ] [DecidableRel (fun a b : κ => a < b)]
    (m : List (κ × α)) (k k' : κ) (v : α) (h : k ≠ k') :
    mapFind (mapSet m k v) k' = mapFind m k' := by
  induction m with
  | nil => simp [mapSet, mapFind, h]
  | cons e rest ih =>
    obtain ⟨k1, v1⟩ := e
    by_cases h1 : k1 = k
    · subst h1
      simp [mapSet, mapFind, h]
    · by_cases h2 : k < k1
      · simp [mapSet, mapFind, h1, h2, h]
      · simp [mapSet, mapFind, h1, h2, ih]

theorem mapFind_mapErase_ne (m : List (κ × α)) (k k' : κ) (h : k ≠ k') :
    mapFind (mapErase m k) k' = mapFind m k' := by
  induction m with
  | nil => simp [mapErase, mapFind]
  | cons e rest ih =>
    obtain ⟨k1, v1⟩ := e
    by_cases h1 : k1 = k
    · subst h1
      simpa [mapErase, List.filter_cons, mapFind, h] using ih
    · by_cases h2 : k1 = k'
      · subst h2
        simp [mapErase, List.filter_cons, h1, mapFind]
      · simpa [mapErase, List.filter_cons, h1, mapFind, h2] using ih

end MapLemmas

theorem foldl_decrement {α : Type} (m : List α) (d : Int) :
    m.foldl (fun d _ => d - 1) d = d - m.length := by
  induction m generalizing d with
  | nil => simp
  | cons e rest ih => simp [ih]; ring


/-! ## Lemmas on the wait loop of EmbedPromptService -/

namespace EmbedPromptService

theorem CancelResponse_depth (s : EmbedPromptService) :
    s.CancelResponse.mModalDepth = s.mModalDepth - s.mResponseMap.length := by
  simp [CancelResponse, foldl_decrement]

theorem frameOf_origModalDepth (api : Api) (args : Args) (w : Nat) (d : Int) :
    (frameOf api args w d).origModalDepth = d := by
  cases api <;> rfl

theorem unwind_length (st : List Frame) (rv : nsresult) (p : Bool) (s : EmbedPromptService) :
    (unwind st rv p s).2.length ≤ st.length := by
  induction st generalizing rv p s with
  | nil => simp [unwind]
  | cons f rest ih =>
    simp only [unwind]
    split
    · simp
    · exact Nat.le_succ_of_le (ih _ _ _)

theorem leave_winid (f : Frame) (s : EmbedPromptService) : (leave f s).winid = s.winid := by
  simp only [leave, ret]
  split <;> rfl

theorem CheckWinID_fst (s : EmbedPromptService) : s.CheckWinID.1 = s.winid := by
  by_cases hw : s.winid = 0 <;> cases ho : s.mOuterService <;> simp [CheckWinID, hw, ho]

theorem CheckWinID_winid (s : EmbedPromptService) : s.CheckWinID.2.winid = s.winid := by
  by_cases hw : s.winid = 0 <;> cases ho : s.mOuterService <;>
    simp [CheckWinID, hw, ho, OnDestroy]

theorem afterProcessNextEvent_winid (rv : nsresult) (p : Bool) (s : EmbedPromptService) :
    (afterProcessNextEvent rv p s).2.winid = s.winid := by
  cases hr : NS_SUCCEEDED rv <;> cases p <;>
    by_cases hw : s.winid = 0 <;>
    simp [afterProcessNextEvent, hr, CheckWinID_fst, CheckWinID_winid, hw]

theorem afterProcessNextEvent_ok (s : EmbedPromptService) (h : s.winid ≠ 0) :
    afterProcessNextEvent .NS_OK true s = (.NS_OK, s) := by
  simp [afterProcessNextEvent, CheckWinID, h, NS_SUCCEEDED]

theorem afterProcessNextEvent_fails (rv : nsresult) (p : Bool) (s : EmbedPromptService)
    (h : s.winid = 0) : NS_SUCCEEDED (afterProcessNextEvent rv p s).1 = false := by
  cases rv <;> cases p <;> simp [afterProcessNextEvent, CheckWinID_fst, h, NS_SUCCEEDED]

theorem unwind_all (st : List Frame) (rv : nsresult) (p : Bool) (s : EmbedPromptService)
    (h : s.winid = 0) : (unwind st rv p s).2 = [] := by
  induction st generalizing rv p s with
  | nil => simp [unwind]
  | cons f rest ih =>
    simp only [unwind, waiting, afterProcessNextEvent_fails rv p s h, Bool.and_false]
    apply ih
    rw [leave_winid, afterProcessNextEvent_winid, h]

theorem unwind_cons_of_zero (f : Frame) (rest : List Frame) (rv : nsresult) (p : Bool)
    (s : EmbedPromptService) (h : s.winid = 0) :
    unwind (f :: rest) rv p s =
      unwind rest .NS_OK true (leave f (afterProcessNextEvent rv p s).2) := by
  simp only [unwind, waiting, afterProcessNextEvent_fails rv p s h, Bool.and_false,
    Bool.false_eq_true, if_false]

end EmbedPromptService

namespace EmbedAuthPromptService

end EmbedAuthPromptService

/-! ## The claims on the modal bridge -/

section ModalBridge
open PromptConfig EmbedPromptService Scenario

/-- C1 (counterexample): an AlertCheck waits on window id 5, its entry in the response map
fresh (neither resolved nor taken).  A second AlertCheck for the same id returns no error: it
enters its own wait loop (two active calls, nothing returned), and when a response for id 5
arrives it is this second call that returns, with NS_OK. -/
theorem C1_counterexample :
    mapFind (service5.run [.call .AlertCheck noArgs]).svc.mResponseMap 5 =
        some EmbedPromptResponse.fresh ∧
      (service5.run [.call .AlertCheck noArgs, .call .AlertCheck noArgs]).svc.returned = [] ∧
      (service5.run [.call .AlertCheck noArgs, .call .AlertCheck noArgs]).stack.length = 2 ∧
      (service5.run [.call .AlertCheck noArgs, .call .AlertCheck noArgs,
          response 5 true true ""]).svc.returned = [⟨.AlertCheck, .NS_OK, none, none, none⟩] := by
  decide

/-- C1 (amended): a second begin for a key whose entry is still pending does not fail.  In
AlertCheck / ConfirmCheck / Prompt (window utils present, EnterModalState succeeding) and in
DoSendAsyncPrompt (prompt with a window, an auth target and readable flags) the assignment
`mResponseMap[winid] = EmbedPromptResponse()` overwrites the pending entry with a fresh one and
the call goes on into its wait loop: a new active call, nothing returned. -/
theorem C1_second_begin_overwrites (c : PromptConfig) (api : Api) (args : Args)
    (r : EmbedPromptResponse) (a : AuthConfig) (p : Nat) (r' : EmbedPromptResponse)
    (target : String × String)
    (_hpending : mapFind c.svc.mResponseMap c.svc.winid = some r)
    (hutils : c.svc.utils = true) (hmodal : c.svc.enterModalState = .NS_OK)
    (_hpending' : mapFind a.svc.mResponseMap
      (a.svc.GetIDByWindow (a.svc.queue.prompts p).mWin) = some r')
    (hwin : (a.svc.queue.prompts p).mWin ≠ 0)
    (htarget : getAuthTarget (a.svc.queue.prompts p).mChannel
      (a.svc.queue.prompts p).mAuthInfo = some target)
    (hflags : (a.svc.queue.prompts p).mAuthInfo.flagsRv = .NS_OK) :
    ((c.step (.call api args)).stack =
        frameOf api args c.svc.winid (c.svc.mModalDepth + 1) :: c.stack ∧
      (c.step (.call api args)).svc.returned = c.svc.returned ∧
      mapFind (c.step (.call api args)).svc.mResponseMap c.svc.winid =
        some EmbedPromptResponse.fresh) ∧
    ((a.Run p).stack.length = a.stack.length + 1 ∧
      (a.Run p).svc.returned = a.svc.returned ∧
      mapFind (a.Run p).svc.mResponseMap (a.svc.GetIDByWindow (a.svc.queue.prompts p).mWin) =
        some EmbedPromptResponse.fresh) := by
  constructor
  · simp [step, enter, hutils, hmodal, waiting, NS_SUCCEEDED, frameOf_origModalDepth,
      mapFind_mapSet_self]
  · obtain ⟨h, rl⟩ := target
    simp [AuthConfig.Run, EmbedAuthPromptService.DoSendAsyncPrompt_enter, hwin, htarget, hflags,
      NS_FAILED, NS_SUCCEEDED, mapFind_mapSet_self, EmbedAuthPromptService.GetIDByWindow]

/-- Witness of C1 (amended): a Prompt begun while an AlertCheck waits on id 5, and a second
DoSendAsyncPrompt begun while the first waits on id 42. -/
theorem C1_second_begin_overwrites_witness :
    ((service5.run [.call .AlertCheck noArgs]).step (.call .Prompt allArgs)).stack.length = 2 ∧
    (AuthConfig.Run (authService.run [.asyncPromptAuth (request 1), .runnable]) 0).stack.length
      = 2 :=
  have h := C1_second_begin_overwrites (service5.run [.call .AlertCheck noArgs]) .Prompt allArgs
    EmbedPromptResponse.fresh (authService.run [.asyncPromptAuth (request 1), .runnable]) 0
    EmbedPromptResponse.fresh ("http://example.com", "realm1")
    (by decide) (by decide) (by decide) (by decide) (by decide) (by decide) (by decide)
  ⟨by rw [h.1.1]; rfl, by rw [h.2.1]; rfl⟩

/-- C6 (counterexample): two AlertCheck calls of one service are nested on window id 5, with
recorded depths 2 and 1 and a single entry in the response map.  CancelResponse lowers
`mModalDepth` from 2 to 1, so the condition `mModalDepth == origModalDepth` of the outer loop
is true after it: when the destroy notification has been handled the inner call has returned
and the outer call is still in its wait loop. -/
theorem C6_counterexample :
    (service5.run [.call .AlertCheck noArgs, .call .AlertCheck noArgs]).stack.map
        Frame.origModalDepth = [2, 1] ∧
      (service5.run [.call .AlertCheck noArgs, .call .AlertCheck noArgs]).svc.mResponseMap.length
        = 1 ∧
      ((service5.run [.call .AlertCheck noArgs,
        .call .AlertCheck noArgs]).svc.CancelResponse.mModalDepth == 1) = true ∧
      (service5.run [.call .AlertCheck noArgs, .call .AlertCheck noArgs,
        .outerWindowDestroyed]).stack = [⟨.AlertCheck, 5, 1, none, none, none⟩] ∧
      EmbedPromptService.waiting (service5.run [.call .AlertCheck noArgs,
        .call .AlertCheck noArgs, .outerWindowDestroyed]).svc 1 .NS_OK = true := by
  decide

/-- C6 (amended): CancelResponse lowers `mModalDepth` by the number of entries of the response
map, so after it the condition `mModalDepth == origModalDepth` holds exactly for a recorded
depth equal to the lowered value.  When the destroy notification reaches a registered observer
and the map is not empty, the innermost wait loop (whose recorded depth is the current depth)
leaves; and when `GetIDByWindow` reports 0 for the window, every wait loop of the service
leaves, through the CheckWinID test. -/
theorem C6_cancel_lowers_depth (c : PromptConfig) :
    (∀ d : Int, (c.svc.CancelResponse.mModalDepth == d) = true ↔
        d = c.svc.mModalDepth - c.svc.mResponseMap.length) ∧
    (∀ f rest, c.stack = f :: rest → f.origModalDepth = c.svc.mModalDepth →
        c.svc.mResponseMap ≠ [] → c.svc.mOuterService = true → c.svc.observing = true →
        (c.step .outerWindowDestroyed).stack.length ≤ rest.length) ∧
    (c.svc.winid = 0 → (c.step .outerWindowDestroyed).stack = []) := by
  refine ⟨?_, ?_, ?_⟩
  · intro d
    rw [CancelResponse_depth, beq_iff_eq]
    exact eq_comm
  · intro f rest hst hd hm ho hb
    have hlen : 0 < c.svc.mResponseMap.length := List.length_pos.mpr hm
    by_cases hz : c.svc.winid = 0
    · have h3 : (c.step .outerWindowDestroyed).stack = [] := by
        simp only [step, ofPair]
        apply unwind_all
        simp only [Observe, OnDestroy, OnDestroyNotification, CancelResponse]
        split_ifs <;> exact hz
      simp [h3]
    · have hobs : c.svc.Observe = { c.svc with
          observing := false, trace := c.svc.trace ++ [Effect.RemoveObserver],
          mModalDepth := c.svc.mModalDepth - c.svc.mResponseMap.length } := by
        simp [Observe, ho, hb, OnDestroy, OnDestroyNotification, CancelResponse, foldl_decrement]
      simp only [step, ofPair, hst, unwind]
      rw [afterProcessNextEvent_ok _ (by rw [hobs]; exact hz)]
      have hw : waiting c.svc.Observe f.origModalDepth .NS_OK = false := by
        rw [hobs]
        simp only [waiting, hd, NS_SUCCEEDED, Bool.and_true, beq_eq_false_iff_ne, ne_eq]
        omega
      simp only [hw]
      exact unwind_length _ _ _ _
  · intro h0
    simp only [step, ofPair]
    apply unwind_all
    simp only [Observe, OnDestroy, OnDestroyNotification, CancelResponse]
    split_ifs <;> exact h0


/-- Witness of C6 (amended): the destroy notification while two AlertCheck calls are nested on
window id 5. -/
theorem C6_cancel_lowers_depth_witness :
    ((service5.run [.call .AlertCheck noArgs, .call .AlertCheck noArgs]).step
      .outerWindowDestroyed).stack.length ≤ 1 :=
  (C6_cancel_lowers_depth (service5.run [.call .AlertCheck noArgs, .call .AlertCheck noArgs])).2.1
    ⟨.AlertCheck, 5, 2, none, none, none⟩ [⟨.AlertCheck, 5, 1, none, none, none⟩]
    (by decide) (by decide) (by decide) (by decide) (by decide)

end ModalBridge

/-! ## Lemmas on the auth prompt queue -/

section MoreMapLemmas
variable {κ α : Type} [DecidableEq κ]

theorem mem_mapErase (m : List (κ × α)) (k : κ) (e : κ × α) :
    e ∈ mapErase m k ↔ e ∈ m ∧ e.1 ≠ k := by
  simp [mapErase, List.mem_filter]

theorem mem_mapSet [LT κ] [DecidableRel (fun a b : κ => a < b)] (m : List (κ × α)) (k : κ)
    (v : α) (e : κ × α) (h : e ∈ mapSet m k v) : e = (k, v) ∨ e ∈ m := by
  induction m with
  | nil => simpa [mapSet] using h
  | cons x rest ih =>
    obtain ⟨k', v'⟩ := x
    by_cases h1 : k' = k
    · simp only [mapSet, h1, if_true, List.mem_cons] at h
      rcases h with h | h
      · exact Or.inl h
      · exact Or.inr (List.mem_cons_of_mem _ h)
    · by_cases h2 : k < k'
      · simp only [mapSet, h1, h2, if_true, if_false, List.mem_cons] at h
        rcases h with h | h | h
        · exact Or.inl h
        · exact Or.inr (h ▸ List.mem_cons_self _ _)
        · exact Or.inr (List.mem_cons_of_mem _ h)
      · simp only [mapSet, h1, h2, if_false, List.mem_cons] at h
        rcases h with h | h
        · exact Or.inr (h ▸ List.mem_cons_self _ _)
        · rcases ih h with h | h
          · exact Or.inl h
          · exact Or.inr (List.mem_cons_of_mem _ h)

theorem mapFind_eq_none (m : List (κ × α)) (k : κ) (h : mapFind m k = none) :
    k ∉ m.map Prod.fst := by
  induction m with
  | nil => simp
  | cons x rest ih =>
    obtain ⟨k', v'⟩ := x
    by_cases h1 : k' = k
    · simp [mapFind, h1] at h
    · simp only [mapFind, h1, if_false] at h
      simp only [List.map_cons, List.mem_cons, not_or]
      exact ⟨fun hk => h1 hk.symm, ih h⟩

theorem mapFind_of_mem (m : List (κ × α)) (k : κ) (v : α) (hmem : (k, v) ∈ m)
    (hnodup : (m.map Prod.fst).Nodup) : mapFind m k = some v := by
  induction m with
  | nil => simp at hmem
  | cons x rest ih =>
    obtain ⟨k', v'⟩ := x
    simp only [List.map_cons, List.nodup_cons] at hnodup
    simp only [List.mem_cons, Prod.mk.injEq] at hmem
    rcases hmem with ⟨hk, hv⟩ | hmem
    · simp [mapFind, hk, hv]
    · have hne : k' ≠ k := by
        intro h
        apply hnodup.1
        rw [h]
        exact List.mem_map_of_mem Prod.fst hmem
      simp [mapFind, hne, ih hmem hnodup.2]

theorem nodup_mapSet [LT κ] [DecidableRel (fun a b : κ => a < b)] (m : List (κ × α)) (k : κ)
    (v : α) (hk : k ∉ m.map Prod.fst) (hnodup : (m.map Prod.fst).Nodup) :
    ((mapSet m k v).map Prod.fst).Nodup := by
  induction m with
  | nil => simp [mapSet]
  | cons x rest ih =>
    obtain ⟨k', v'⟩ := x
    simp only [List.map_cons, List.mem_cons, not_or] at hk
    simp only [List.map_cons, List.nodup_cons] at hnodup
    have h1 : ¬k' = k := fun h => hk.1 h.symm
    by_cases h2 : k < k'
    · simp only [mapSet, h1, h2, if_true, if_false, List.map_cons, List.nodup_cons,
        List.mem_cons, not_or]
      exact ⟨⟨hk.1, hk.2⟩, hnodup.1, hnodup.2⟩
    · simp only [mapSet, h1, h2, if_false, List.map_cons, List.nodup_cons]
      refine ⟨?_, ih hk.2 hnodup.2⟩
      intro hmem
      obtain ⟨e, he, hek⟩ := List.mem_map.mp hmem
      rcases mem_mapSet rest k v e he with h | h
      · rw [h] at hek; exact h1 hek.symm
      · exact hnodup.1 (hek ▸ List.mem_map_of_mem Prod.fst h)

theorem nodup_mapErase (m : List (κ × α)) (k : κ) (hnodup : (m.map Prod.fst).Nodup) :
    ((mapErase m k).map Prod.fst).Nodup :=
  hnodup.sublist ((List.filter_sublist m).map Prod.fst)

end MoreMapLemmas

theorem mem_of_mapFind {κ α : Type} [DecidableEq κ] (m : List (κ × α)) (k : κ) (v : α)
    (h : mapFind m k = some v) : (k, v) ∈ m := by
  induction m with
  | nil => simp [mapFind] at h
  | cons x rest ih =>
    obtain ⟨k', v'⟩ := x
    by_cases h1 : k' = k
    · simp only [mapFind, h1, if_true, Option.some.injEq] at h
      simp [h1, h]
    · simp only [mapFind, h1, if_false] at h
      exact List.mem_cons_of_mem _ (ih h)

theorem cstr_cstr (s : String) : cstr (cstr s) = cstr s := by
  simp [cstr, List.takeWhile_idem]

theorem digitChar_ne_nul (m : Nat) (h : m < 10) : Nat.digitChar m ≠ Char.ofNat 0 := by
  interval_cases m <;> decide

theorem toDigitsCore_head (fuel n : Nat) (ds : List Char)
    (hhead : ∀ c, ds.head? = some c → c ≠ Char.ofNat 0) (hfuel : fuel = 0 → ds ≠ []) :
    ∃ c rest, Nat.toDigitsCore 10 fuel n ds = c :: rest ∧ c ≠ Char.ofNat 0 := by
  induction fuel generalizing n ds with
  | zero =>
    cases ds with
    | nil => exact absurd rfl (hfuel rfl)
    | cons c rest => exact ⟨c, rest, rfl, hhead c rfl⟩
  | succ fuel ih =>
    have hd : Nat.digitChar (n % 10) ≠ Char.ofNat 0 :=
      digitChar_ne_nul _ (Nat.mod_lt _ (by decide))
    by_cases h0 : n / 10 = 0
    · exact ⟨_, ds, by simp [Nat.toDigitsCore, h0], hd⟩
    · have := ih (n / 10) (Nat.digitChar (n % 10) :: ds)
        (fun c hc => by simp at hc; rw [← hc]; exact hd) (fun _ => by simp)
      simpa [Nat.toDigitsCore, h0] using this

theorem cstr_hashKey_ne_empty (level : Nat) (hostname httpRealm : String) :
    cstr (hashKey level hostname httpRealm) ≠ "" := by
  obtain ⟨c, rest, hc, hne⟩ := toDigitsCore_head (level + 1) level [] (by simp) (by simp)
  have hdata : (hashKey level hostname httpRealm).data =
      c :: (rest ++ "|".data ++ hostname.data ++ "|".data ++ httpRealm.data) := by
    simp [hashKey, toString, Nat.repr, Nat.toDigits, hc, List.asString]
  intro h
  have h2 := congrArg String.data h
  simp [cstr, hdata, List.takeWhile_cons, hne] at h2

namespace AsyncQueue

theorem DoAsyncPrompt_asyncPrompts (q : AsyncQueue) :
    q.DoAsyncPrompt.asyncPrompts = q.asyncPrompts := by
  unfold DoAsyncPrompt
  dsimp only
  split_ifs
  · rfl
  · split
    · rfl
    · split <;> rfl

theorem DoAsyncPrompt_notifications (q : AsyncQueue) :
    q.DoAsyncPrompt.notifications = q.notifications := by
  unfold DoAsyncPrompt
  dsimp only
  split_ifs
  · rfl
  · split
    · rfl
    · split <;> rfl

theorem DoAsyncPrompt_consumers (q : AsyncQueue) :
    q.DoAsyncPrompt.consumers = q.consumers := by
  unfold DoAsyncPrompt
  dsimp only
  split_ifs
  · rfl
  · split
    · rfl
    · split <;> rfl

theorem DoResponseAsyncPrompt_asyncPrompts (p : Nat) (confirmed : Bool) (username password : String)
    (q : AsyncQueue) :
    (q.DoResponseAsyncPrompt p confirmed username password).asyncPrompts =
      mapErase q.asyncPrompts (cstr (q.prompts p).mHashKey) := by
  unfold DoResponseAsyncPrompt
  dsimp only
  split_ifs <;> simp [DoAsyncPrompt_asyncPrompts]

theorem DoResponseAsyncPrompt_notifications (p : Nat) (confirmed : Bool)
    (username password : String) (q : AsyncQueue)
    (hflags : (q.prompts p).mAuthInfo.flagsRv = .NS_OK) :
    (q.DoResponseAsyncPrompt p confirmed username password).notifications =
      q.notifications ++ notifyConsumers confirmed
        (fillAuthInfo (q.prompts p).mAuthInfo username password) q.consumers
        (q.prompts p).consumers := by
  unfold DoResponseAsyncPrompt
  simp [hflags, NS_FAILED, NS_SUCCEEDED, DoAsyncPrompt_notifications]

theorem notifyConsumers_append (confirmed : Bool) (authInfo : nsIAuthInformation)
    (consumers : Nat → nsAuthCancelableConsumer) (l1 l2 : List Nat) :
    notifyConsumers confirmed authInfo consumers (l1 ++ l2) =
      notifyConsumers confirmed authInfo consumers l1 ++
        notifyConsumers confirmed authInfo consumers l2 := by
  induction l1 with
  | nil => rfl
  | cons w rest ih =>
    cases hc : (consumers w).mCallback <;> simp [notifyConsumers, hc, ih]

theorem notifyConsumers_congr (confirmed : Bool) (authInfo : nsIAuthInformation)
    (consumers consumers' : Nat → nsAuthCancelableConsumer) (l : List Nat)
    (h : ∀ w ∈ l, consumers' w = consumers w) :
    notifyConsumers confirmed authInfo consumers' l =
      notifyConsumers confirmed authInfo consumers l := by
  induction l with
  | nil => rfl
  | cons w rest ih =>
    have hw := h w (List.mem_cons_self _ _)
    have hr := ih (fun x hx => h x (List.mem_cons_of_mem _ hx))
    simp only [notifyConsumers, hw, hr]

theorem requestKey_some (r : AuthRequest) (key : String) (h : requestKey r = some key) :
    NS_FAILED r.authInfo.flagsRv = false ∧
      ¬(r.authInfo.flags &&& AUTH_PROXY ≠ 0 ∧ r.authInfo.flags &&& ONLY_PASSWORD ≠ 0) ∧
      ∃ t, getAuthTarget r.aChannel r.authInfo = some t ∧ cstr (hashKey r.level t.1 t.2) = key := by
  unfold requestKey at h
  split_ifs at h with h1 h2
  refine ⟨by simpa using h1, h2, ?_⟩
  cases ht : getAuthTarget r.aChannel r.authInfo with
  | none => simp [ht] at h
  | some t => exact ⟨t, rfl, by simpa [ht] using h⟩

theorem inv_congr (q q' : AsyncQueue) (h : Inv q) (h1 : q'.asyncPrompts = q.asyncPrompts)
    (h2 : q'.asyncPromptInProgress = q.asyncPromptInProgress) (h3 : q'.nextPrompt = q.nextPrompt)
    (h4 : ∀ p, (q'.prompts p).mHashKey = (q.prompts p).mHashKey ∧
      (q'.prompts p).mInProgress = (q.prompts p).mInProgress ∧
      (q'.prompts p).mWin = (q.prompts p).mWin) : Inv q' := by
  have hb : ∀ w, q'.busy w = q.busy w := fun w => by simp [busy, h2]
  refine ⟨?_, ?_, ?_, ?_⟩
  · intro e he
    rw [h1] at he
    obtain ⟨p, hp1, hp2, hp3⟩ := h.valid e he
    exact ⟨p, hp1, h3 ▸ hp2, by rw [(h4 p).1]; exact hp3⟩
  · rw [h1]; exact h.nodup
  · intro e he p hp hin hw
    rw [h1] at he
    rw [(h4 p).2.1] at hin
    rw [(h4 p).2.2] at hw ⊢
    rw [hb]
    exact h.busyOwner e he p hp hin hw
  · intro e1 he1 e2 he2 p1 p2 hp1 hp2 hi1 hi2 hw hw0
    rw [h1] at he1 he2
    rw [(h4 p1).2.1] at hi1
    rw [(h4 p2).2.1] at hi2
    rw [(h4 p1).2.2] at hw hw0
    rw [(h4 p2).2.2] at hw
    exact h.single e1 he1 e2 he2 p1 p2 hp1 hp2 hi1 hi2 hw hw0

theorem findAvailable_spec (q : AsyncQueue) (l : List (String × Option Nat))
    (h : q.findAvailable l ≠ "") :
    ∃ key p, (key, some p) ∈ l ∧ q.findAvailable l = cstr key ∧
      q.busy (q.prompts p).mWin = false := by
  induction l with
  | nil => simp [findAvailable] at h
  | cons x rest ih =>
    obtain ⟨key, ptr⟩ := x
    cases ptr with
    | none =>
      simp only [findAvailable] at h ⊢
      obtain ⟨k, p, hm, hk, hb⟩ := ih h
      exact ⟨k, p, List.mem_cons_of_mem _ hm, hk, hb⟩
    | some p =>
      by_cases hb : q.busy (q.prompts p).mWin = true
      · simp only [findAvailable, hb, Bool.not_true, Bool.false_eq_true, if_false] at h ⊢
        obtain ⟨k, p', hm, hk, hb'⟩ := ih h
        exact ⟨k, p', List.mem_cons_of_mem _ hm, hk, hb'⟩
      · simp only [Bool.not_eq_true] at hb
        exact ⟨key, p, List.mem_cons_self _ _, by simp [findAvailable, hb], hb⟩

theorem DoAsyncPrompt_cases (q : AsyncQueue) (h : Inv q) :
    q.DoAsyncPrompt = q ∨ ∃ key p, (key, some p) ∈ q.asyncPrompts ∧
      q.busy (q.prompts p).mWin = false ∧ q.DoAsyncPrompt = q.promoted p := by
  by_cases hk : q.findAvailable q.asyncPrompts = ""
  · left
    simp [DoAsyncPrompt, hk]
  · obtain ⟨key, p, hm, hf, hb⟩ := findAvailable_spec q _ hk
    obtain ⟨p', hp', _, hkey⟩ := h.valid _ hm
    simp only [Option.some.injEq] at hp'
    subst hp'
    simp only at hkey
    have hck : cstr key = key := by rw [← hkey, cstr_cstr]
    have hat : q.promptAt key = some p := by
      simp [promptAt, mapFind_of_mem _ _ _ hm h.nodup]
    cases ht : getAuthTarget (q.prompts p).mChannel (q.prompts p).mAuthInfo with
    | none =>
      left
      simp [DoAsyncPrompt, hf, hck, hat, ht]
    | some t =>
      right
      refine ⟨key, p, hm, hb, ?_⟩
      have hne : ¬ key = "" := fun h0 => hk (by rw [hf, hck, h0])
      simp [DoAsyncPrompt, hf, hck, hat, ht, promoted, hne]

theorem busy_mapSet (q : AsyncQueue) (w w' : Nat) :
    (mapFind (mapSet q.asyncPromptInProgress w true) w').getD false =
      (if w' = w then true else q.busy w') := by
  by_cases h : w' = w
  · subst h; simp [mapFind_mapSet_self]
  · simp [mapFind_mapSet_ne _ _ _ _ (Ne.symm h), h, busy]

theorem inv_promoted (q : AsyncQueue) (h : Inv q) (key : String) (p : Nat)
    (hm : (key, some p) ∈ q.asyncPrompts) (hb : q.busy (q.prompts p).mWin = false) :
    Inv (q.promoted p) := by
  have hbusy : ∀ w, q.busy w = true → (q.promoted p).busy w = true := by
    intro w hw
    unfold AsyncQueue.promoted
    by_cases h0 : (q.prompts p).mWin = 0
    · simpa [busy, h0] using hw
    · simp only [busy, ne_eq, h0, not_false_eq_true, if_true, busy_mapSet]
      split_ifs
      · rfl
      · exact hw
  have hfield : ∀ p', ((q.promoted p).prompts p').mWin = (q.prompts p').mWin ∧
      ((q.promoted p).prompts p').mHashKey = (q.prompts p').mHashKey ∧
      (p' ≠ p → ((q.promoted p).prompts p').mInProgress = (q.prompts p').mInProgress) := by
    intro p'
    by_cases hp : p' = p
    · subst hp; simp [AsyncQueue.promoted]
    · simp [AsyncQueue.promoted, Function.update, hp]
  have hold : ∀ e ∈ q.asyncPrompts, ∀ p', e.2 = some p' →
      ((q.promoted p).prompts p').mInProgress = true → p' ≠ p →
      (q.prompts p').mWin ≠ 0 → (q.prompts p').mWin ≠ (q.prompts p).mWin := by
    intro e he p' hp' hin hne hw0 hsame
    rw [(hfield p').2.2 hne] at hin
    have := h.busyOwner e he p' hp' hin hw0
    rw [hsame, hb] at this
    exact Bool.noConfusion this
  refine ⟨?_, h.nodup, ?_, ?_⟩
  · intro e he
    obtain ⟨p', h1, h2, h3⟩ := h.valid e he
    exact ⟨p', h1, h2, by rw [(hfield p').2.1]; exact h3⟩
  · intro e he p' hp' hin hw0
    change e ∈ q.asyncPrompts at he
    rw [(hfield p').1] at hw0 ⊢
    by_cases hp : p' = p
    · subst hp
      simp [AsyncQueue.promoted, busy, hw0, mapFind_mapSet_self]
    · rw [(hfield p').2.2 hp] at hin
      exact hbusy _ (h.busyOwner e he p' hp' hin hw0)
  · intro e1 he1 e2 he2 p1 p2 hp1 hp2 hi1 hi2 hw hw0
    change e1 ∈ q.asyncPrompts at he1
    change e2 ∈ q.asyncPrompts at he2
    rw [(hfield p1).1] at hw hw0
    rw [(hfield p2).1] at hw
    by_cases h1 : p1 = p
    · by_cases h2 : p2 = p
      · rw [h1, h2]
      · exfalso
        exact hold e2 he2 p2 hp2 hi2 h2 (hw ▸ hw0) (by rw [← hw, h1])
    · by_cases h2 : p2 = p
      · exfalso
        exact hold e1 he1 p1 hp1 hi1 h1 hw0 (by rw [hw, h2])
      · rw [(hfield p1).2.2 h1] at hi1
        rw [(hfield p2).2.2 h2] at hi2
        exact h.single e1 he1 e2 he2 p1 p2 hp1 hp2 hi1 hi2 hw hw0

theorem inv_DoAsyncPrompt (q : AsyncQueue) (h : Inv q) : Inv q.DoAsyncPrompt := by
  rcases DoAsyncPrompt_cases q h with h1 | ⟨key, p, hm, hb, h1⟩
  · rw [h1]; exact h
  · rw [h1]; exact inv_promoted q h key p hm hb

theorem inv_removed (q : AsyncQueue) (h : Inv q) (p : Nat) (hpending : Pending q p)
    (hin : (q.prompts p).mInProgress = true) : Inv (q.removed p) := by
  obtain ⟨e0, he0, hp0⟩ := hpending
  have hother : ∀ e ∈ (q.removed p).asyncPrompts, e ∈ q.asyncPrompts ∧ ∀ p', e.2 = some p' →
      p' ≠ p := by
    intro e he
    have he' := (mem_mapErase _ _ _).mp he
    refine ⟨he'.1, fun p' hp' hpp => he'.2 ?_⟩
    obtain ⟨p'', h1, _, h3⟩ := h.valid e he'.1
    rw [hp', Option.some.injEq] at h1
    rw [← h3, ← h1, hpp]
  have hfield : ∀ p', p' ≠ p → (q.removed p).prompts p' = q.prompts p' := by
    intro p' hp
    simp [AsyncQueue.removed, Function.update, hp]
  refine ⟨?_, nodup_mapErase _ _ h.nodup, ?_, ?_⟩
  · intro e he
    obtain ⟨hmem, hne⟩ := hother e he
    obtain ⟨p', h1, h2, h3⟩ := h.valid e hmem
    exact ⟨p', h1, h2, by rw [hfield p' (hne p' h1)]; exact h3⟩
  · intro e he p' hp' hi hw0
    obtain ⟨hmem, hne⟩ := hother e he
    rw [hfield p' (hne p' hp')] at hi hw0 ⊢
    have hb := h.busyOwner e hmem p' hp' hi hw0
    have hdiff : (q.prompts p').mWin ≠ (q.prompts p).mWin := by
      intro hsame
      exact hne p' hp' (h.single e hmem e0 he0 p' p hp' hp0 hi hin hsame hw0)
    unfold AsyncQueue.removed busy
    simp only
    split_ifs
    · rw [mapFind_mapErase_ne _ _ _ (Ne.symm hdiff)]; exact hb
    · exact hb
  · intro e1 he1 e2 he2 p1 p2 hp1 hp2 hi1 hi2 hw hw0
    obtain ⟨hm1, hn1⟩ := hother e1 he1
    obtain ⟨hm2, hn2⟩ := hother e2 he2
    rw [hfield p1 (hn1 p1 hp1)] at hi1 hw hw0
    rw [hfield p2 (hn2 p2 hp2)] at hi2 hw
    exact h.single e1 hm1 e2 hm2 p1 p2 hp1 hp2 hi1 hi2 hw hw0

theorem inv_DoResponseAsyncPrompt (q : AsyncQueue) (h : Inv q) (p : Nat) (confirmed : Bool)
    (username password : String) (hpending : Pending q p)
    (hin : (q.prompts p).mInProgress = true) :
    Inv (q.DoResponseAsyncPrompt p confirmed username password) := by
  have hr := inv_removed q h p hpending hin
  unfold AsyncQueue.DoResponseAsyncPrompt
  dsimp only
  by_cases hf : NS_FAILED (q.prompts p).mAuthInfo.flagsRv = true
  · rw [if_pos hf]
    refine inv_congr (q.removed p) _ hr rfl rfl rfl ?_
    intro p'
    exact ⟨rfl, rfl, rfl⟩
  · rw [if_neg hf]
    apply inv_DoAsyncPrompt
    refine inv_congr (q.removed p) _ hr rfl rfl rfl ?_
    intro p'
    by_cases hp : p' = p
    · subst hp; simp [AsyncQueue.removed]
    · simp [AsyncQueue.removed, Function.update, hp]

theorem inv_Cancel (q : AsyncQueue) (h : Inv q) (c : Nat) (reason : nsresult) :
    Inv (q.Cancel c reason).2 := by
  unfold AsyncQueue.Cancel
  split_ifs
  · exact h
  · exact inv_congr q _ h rfl rfl rfl (fun _ => ⟨rfl, rfl, rfl⟩)

theorem inv_promptAt_none (q : AsyncQueue) (h : Inv q) (key : String)
    (hnone : q.promptAt key = none) : mapFind q.asyncPrompts key = none := by
  cases hf : mapFind q.asyncPrompts key with
  | none => rfl
  | some v =>
    obtain ⟨p, hp, _, _⟩ := h.valid _ (mem_of_mapFind _ _ _ hf)
    simp only at hp
    simp [promptAt, hf, hp] at hnone

theorem mem_setPrompt (m : List (String × Option Nat)) (key : String) (v : Option Nat)
    (e : String × Option Nat) (h : e ∈ setPrompt m key v) : e = (key, v) ∨ e ∈ m :=
  @mem_mapSet String (Option Nat) _ ⟨fun a b => List.lt a.data b.data⟩
    (fun a b => List.hasDecidableLt a.data b.data) m key v e h

theorem nodup_setPrompt (m : List (String × Option Nat)) (key : String) (v : Option Nat)
    (hk : key ∉ m.map Prod.fst) (hnodup : (m.map Prod.fst).Nodup) :
    ((setPrompt m key v).map Prod.fst).Nodup :=
  @nodup_mapSet String (Option Nat) _ ⟨fun a b => List.lt a.data b.data⟩
    (fun a b => List.hasDecidableLt a.data b.data) m key v hk hnodup

theorem inv_inserted (q : AsyncQueue) (h : Inv q) (key : String) (prompt : EmbedAsyncAuthPrompt)
    (hnone : mapFind q.asyncPrompts key = none) (hp : prompt.mInProgress = false)
    (hkey : cstr prompt.mHashKey = key) : Inv (q.inserted key prompt) := by
  have hmem : ∀ e ∈ (q.inserted key prompt).asyncPrompts,
      e = (key, some q.nextPrompt) ∨ (e ∈ q.asyncPrompts ∧ ∀ p, e.2 = some p →
        p < q.nextPrompt ∧ (q.inserted key prompt).prompts p = q.prompts p) := by
    intro e he
    rcases mem_setPrompt _ _ _ _ he with h1 | h1
    · exact Or.inl h1
    · refine Or.inr ⟨h1, fun p hp' => ?_⟩
      obtain ⟨p', h2, h3, _⟩ := h.valid e h1
      rw [hp', Option.some.injEq] at h2
      subst h2
      exact ⟨h3, by simp [AsyncQueue.inserted, Function.update, Nat.ne_of_lt h3]⟩
  have hnew : ((q.inserted key prompt).prompts q.nextPrompt).mInProgress = false := by
    simp [AsyncQueue.inserted, hp]
  refine ⟨?_, nodup_setPrompt _ _ _ (mapFind_eq_none _ _ hnone) h.nodup, ?_, ?_⟩
  · intro e he
    rcases hmem e he with h1 | ⟨h1, h2⟩
    · exact ⟨q.nextPrompt, by rw [h1], Nat.lt_succ_self _, by
        rw [h1]; simp [AsyncQueue.inserted, hkey]⟩
    · obtain ⟨p, h3, h4, h5⟩ := h.valid e h1
      exact ⟨p, h3, Nat.lt_succ_of_lt h4, by rw [(h2 p h3).2]; exact h5⟩
  · intro e he p hp' hi hw0
    rcases hmem e he with h1 | ⟨h1, h2⟩
    · rw [h1, Option.some.injEq] at hp'
      rw [← hp', hnew] at hi
      exact Bool.noConfusion hi
    · rw [(h2 p hp').2] at hi hw0 ⊢
      exact h.busyOwner e h1 p hp' hi hw0
  · intro e1 he1 e2 he2 p1 p2 hp1 hp2 hi1 hi2 hw hw0
    rcases hmem e1 he1 with h1 | ⟨h1, h1'⟩
    · rw [h1, Option.some.injEq] at hp1
      rw [← hp1, hnew] at hi1
      exact Bool.noConfusion hi1
    · rcases hmem e2 he2 with h2 | ⟨h2, h2'⟩
      · rw [h2, Option.some.injEq] at hp2
        rw [← hp2, hnew] at hi2
        exact Bool.noConfusion hi2
      · rw [(h1' p1 hp1).2] at hi1 hw hw0
        rw [(h2' p2 hp2).2] at hi2 hw
        exact h.single e1 h1 e2 h2 p1 p2 hp1 hp2 hi1 hi2 hw hw0

theorem inv_AsyncPromptAuth (q : AsyncQueue) (h : Inv q) (mWin : Nat) (r : AuthRequest) :
    Inv (q.AsyncPromptAuth mWin r).2 := by
  unfold AsyncQueue.AsyncPromptAuth
  dsimp only
  split_ifs
  · exact h
  · exact h
  · split
    · exact inv_congr q _ h rfl rfl rfl (fun _ => ⟨rfl, rfl, rfl⟩)
    · rename_i hostname httpRealm _
      have hq1 : Inv { q with
          consumers := Function.update q.consumers q.nextConsumer ⟨r.aCallback, r.aContext⟩,
          nextConsumer := q.nextConsumer + 1 } :=
        inv_congr q _ h rfl rfl rfl (fun _ => ⟨rfl, rfl, rfl⟩)
      split
      · rename_i p _
        refine inv_congr q _ h rfl rfl rfl ?_
        intro p'
        by_cases hp : p' = p
        · subst hp; simp
        · simp [Function.update, hp]
      · rename_i hnone
        apply inv_DoAsyncPrompt
        exact inv_inserted _ hq1 _ _ (inv_promptAt_none _ hq1 _ hnone) rfl rfl

theorem inv_empty : Inv AsyncQueue.empty := by
  refine ⟨?_, ?_, ?_, ?_⟩ <;> simp [AsyncQueue.empty]

theorem inv_of_reachable (q : AsyncQueue) (h : Reachable q) : Inv q := by
  induction h with
  | empty => exact inv_empty
  | submit q mWin r _ ih => exact inv_AsyncPromptAuth q ih mWin r
  | promote q _ ih => exact inv_DoAsyncPrompt q ih
  | respond q p confirmed username password _ hp hi ih =>
    exact inv_DoResponseAsyncPrompt q ih p confirmed username password hp hi
  | cancel q c reason _ ih => exact inv_Cancel q ih c reason

theorem mapFind_setPrompt_self (m : List (String × Option Nat)) (key : String) (v : Option Nat) :
    mapFind (setPrompt m key v) key = some v :=
  @mapFind_mapSet_self String (Option Nat) _ ⟨fun a b => List.lt a.data b.data⟩
    (fun a b => List.hasDecidableLt a.data b.data) m key v

theorem findAvailable_none (q : AsyncQueue) (l : List (String × Option Nat))
    (h : ∀ e ∈ l, ∀ p, e.2 = some p → q.busy (q.prompts p).mWin = true) :
    q.findAvailable l = "" := by
  induction l with
  | nil => rfl
  | cons x rest ih =>
    obtain ⟨key, ptr⟩ := x
    have hr := ih (fun e he => h e (List.mem_cons_of_mem _ he))
    cases ptr with
    | none => simpa [findAvailable] using hr
    | some p =>
      have := h (key, some p) (List.mem_cons_self _ _) p rfl
      simpa [findAvailable, this] using hr

theorem findAvailable_setPrompt (q : AsyncQueue) (m : List (String × Option Nat)) (key : String)
    (p : Nat) (hp : q.busy (q.prompts p).mWin = false)
    (hm : ∀ e ∈ m, ∀ p', e.2 = some p' → q.busy (q.prompts p').mWin = true) :
    q.findAvailable (setPrompt m key (some p)) = cstr key := by
  unfold setPrompt
  induction m with
  | nil => simp [mapSet, findAvailable, hp]
  | cons x rest ih =>
    obtain ⟨k', v'⟩ := x
    have hr := ih (fun e he => hm e (List.mem_cons_of_mem _ he))
    by_cases h1 : k' = key
    · simp [mapSet, h1, findAvailable, hp]
    · by_cases h2 : List.lt key.data k'.data
      · simp [mapSet, h1, h2, findAvailable, hp]
      · cases v' with
        | none => simpa [mapSet, h1, h2, findAvailable] using hr
        | some p' =>
          have := hm (k', some p') (List.mem_cons_self _ _) p' rfl
          simpa [mapSet, h1, h2, findAvailable, this] using hr

theorem DoAsyncPrompt_promoted (q : AsyncQueue) (key : String) (p : Nat)
    (hkey : key ≠ "") (hck : cstr key = key)
    (hfind : q.findAvailable q.asyncPrompts = key) (hat : q.promptAt key = some p)
    (ht : getAuthTarget (q.prompts p).mChannel (q.prompts p).mAuthInfo ≠ none) :
    q.DoAsyncPrompt = q.promoted p := by
  obtain ⟨t, ht'⟩ := Option.ne_none_iff_exists'.mp ht
  simp [DoAsyncPrompt, hfind, hkey, hck, hat, ht', promoted]

theorem coalescing_first (mWin : Nat) (q0 : AsyncQueue) (key : String) (r : AuthRequest)
    (hnew : q0.promptAt key = none) (hidle : q0.busy mWin = false)
    (hothers : ∀ e ∈ q0.asyncPrompts, ∀ p, e.2 = some p →
      p < q0.nextPrompt ∧ q0.busy (q0.prompts p).mWin = true)
    (hkey : requestKey r = some key) (hcallback : r.aCallback ≠ none) :
    Coalescing mWin q0 (q0.AsyncPromptAuth mWin r).2 key r [r] := by
  obtain ⟨h1, h2, ⟨h, rl⟩, ht, hk⟩ := requestKey_some r key hkey
  simp only at hk
  have hkne : key ≠ "" := hk ▸ cstr_hashKey_ne_empty _ _ _
  have hkk : cstr key = key := by rw [← hk, cstr_cstr]
  obtain ⟨cb, hcb⟩ := Option.ne_none_iff_exists'.mp hcallback
  have hq : (q0.AsyncPromptAuth mWin r).2 =
      (AsyncQueue.inserted { q0 with
        consumers := Function.update q0.consumers q0.nextConsumer ⟨r.aCallback, r.aContext⟩,
        nextConsumer := q0.nextConsumer + 1 } key
        ⟨[q0.nextConsumer], r.aChannel, r.authInfo, r.level, false, mWin, hashKey r.level h rl,
          false⟩).DoAsyncPrompt := by
    have hnew' : (mapFind q0.asyncPrompts key).getD none = none := hnew
    simp [AsyncPromptAuth, h1, h2, ht, hk, promptAt, hnew', inserted]
  rw [hq, DoAsyncPrompt_promoted _ key q0.nextPrompt hkne hkk]
  · refine ⟨rfl, ?_, rfl, rfl, ?_, ?_, ?_, ?_, ?_, ?_⟩
    · simp [promoted, inserted]
    · intro p hp
      simp [promoted, inserted, Function.update, Nat.ne_of_lt hp]
    · simp [promoted, inserted]
    · simpa [promoted, inserted] using hk
    · simp [promoted, inserted]
    · simp [promoted, inserted]
    · intro confirmed authInfo
      simp [promoted, inserted, notifyConsumers, hcb, outcome]
  · refine (findAvailable_setPrompt _ q0.asyncPrompts key q0.nextPrompt ?_ ?_).trans hkk
    · simpa [inserted, busy] using hidle
    · intro e he p hp
      obtain ⟨hlt, hb⟩ := hothers e he p hp
      simpa [inserted, busy, Function.update, Nat.ne_of_lt hlt] using hb
  · simp [promptAt, inserted, mapFind_setPrompt_self]
  · simp [inserted, ht]

theorem coalescing_next (mWin : Nat) (q0 q : AsyncQueue) (key : String)
    (first x : AuthRequest) (xs : List AuthRequest) (hq : Coalescing mWin q0 q key first xs)
    (hkey : requestKey x = some key) (hcallback : x.aCallback ≠ none) :
    Coalescing mWin q0 (q.AsyncPromptAuth mWin x).2 key first (xs ++ [x]) := by
  obtain ⟨h1, h2, ⟨h, rl⟩, ht, hk⟩ := requestKey_some x key hkey
  simp only at hk
  obtain ⟨cb, hcb⟩ := Option.ne_none_iff_exists'.mp hcallback
  have hat : (mapFind q.asyncPrompts key).getD none = some q0.nextPrompt := by
    rw [hq.asyncPrompts, mapFind_setPrompt_self]; rfl
  have hq' : (q.AsyncPromptAuth mWin x).2 =
      { q with
        consumers := Function.update q.consumers q.nextConsumer ⟨x.aCallback, x.aContext⟩,
        nextConsumer := q.nextConsumer + 1,
        prompts := Function.update q.prompts q0.nextPrompt
          { q.prompts q0.nextPrompt with
            consumers := (q.prompts q0.nextPrompt).consumers ++ [q.nextConsumer] } } := by
    simp [AsyncPromptAuth, h1, h2, ht, hk, promptAt, hat]
  rw [hq']
  refine ⟨hq.asyncPrompts, hq.busyMap, hq.eventQueue, hq.notifications, ?_,
    by simpa using hq.mAuthInfo, by simpa using hq.mHashKey, by simpa using hq.owner, ?_, ?_⟩
  · intro p hp
    simpa [Function.update, Nat.ne_of_lt hp] using hq.others p hp
  · intro w hw
    simp only [Function.update_same, List.mem_append, List.mem_singleton] at hw ⊢
    rcases hw with hw | hw
    · exact Nat.lt_succ_of_lt (hq.allocated w hw)
    · omega
  · intro confirmed authInfo
    simp only [Function.update_same, notifyConsumers_append, List.map_append, List.map_cons,
      List.map_nil]
    rw [notifyConsumers_congr _ _ q.consumers _ _ (fun w hw => by
      have := hq.allocated w hw
      simp [Function.update, Nat.ne_of_lt this]), hq.notify]
    simp [notifyConsumers, hcb, outcome]

theorem coalescing_all (mWin : Nat) (q0 : AsyncQueue) (key : String)
    (first : AuthRequest) (rs : List AuthRequest) :
    ∀ (q : AsyncQueue) (xs : List AuthRequest), Coalescing mWin q0 q key first xs →
      (∀ x ∈ rs, requestKey x = some key) → (∀ x ∈ rs, x.aCallback ≠ none) →
      Coalescing mWin q0 (submitAll mWin rs q) key first (xs ++ rs) := by
  induction rs with
  | nil => intro q xs hq _ _; simpa [submitAll] using hq
  | cons x rest ih =>
    intro q xs hq hk hc
    have hstep := coalescing_next mWin q0 q key first x xs hq
      (hk x (List.mem_cons_self _ _)) (hc x (List.mem_cons_self _ _))
    have := ih _ _ hstep (fun y hy => hk y (List.mem_cons_of_mem _ hy))
      (fun y hy => hc y (List.mem_cons_of_mem _ hy))
    simpa [submitAll] using this

end AsyncQueue

namespace EmbedAuthPromptService

end EmbedAuthPromptService

/-! ## The claims on the auth prompt queue -/

section AuthQueue
open AsyncQueue AuthConfig Scenario

/-- C3: for every n >= 1, n requests with the same identity key (and a callback each) are
submitted through AsyncPromptAuth on the service of one window, in a pending set that does not
hold the key yet, while the window is idle and every request already pending belongs to a busy
window.  Exactly one EmbedAuthRunnable is dispatched, for the prompt of these requests, and
nothing is notified yet; when the round trip completes (DoResponseAsyncPrompt) exactly n
notifications are made, one per waiter in submission order, all OnAuthAvailable with the same
auth information or all OnAuthCancelled, and nothing further is dispatched. -/
theorem C3_coalescing (mWin : Nat) (q0 : AsyncQueue) (key : String) (r : AuthRequest)
    (rs : List AuthRequest) (confirmed : Bool) (username password : String)
    (hnew : q0.promptAt key = none) (hidle : q0.busy mWin = false)
    (hothers : ∀ e ∈ q0.asyncPrompts, ∀ p, e.2 = some p →
      p < q0.nextPrompt ∧ q0.busy (q0.prompts p).mWin = true)
    (hkey : ∀ x ∈ r :: rs, requestKey x = some key)
    (hcallback : ∀ x ∈ r :: rs, x.aCallback ≠ none) :
    (submitAll mWin (r :: rs) q0).eventQueue = q0.eventQueue ++ [q0.nextPrompt] ∧
    (submitAll mWin (r :: rs) q0).notifications = q0.notifications ∧
    ((submitAll mWin (r :: rs) q0).DoResponseAsyncPrompt q0.nextPrompt confirmed username
        password).notifications =
      q0.notifications ++ (r :: rs).map
        (outcome confirmed (fillAuthInfo r.authInfo username password)) ∧
    ((submitAll mWin (r :: rs) q0).DoResponseAsyncPrompt q0.nextPrompt confirmed username
        password).eventQueue = q0.eventQueue ++ [q0.nextPrompt] := by
  have h1 := coalescing_first mWin q0 key r hnew hidle hothers (hkey r (List.mem_cons_self _ _))
    (hcallback r (List.mem_cons_self _ _))
  have h := coalescing_all mWin q0 key r rs _ _ h1
    (fun y hy => hkey y (List.mem_cons_of_mem _ hy))
    (fun y hy => hcallback y (List.mem_cons_of_mem _ hy))
  have hsub : submitAll mWin (r :: rs) q0 = submitAll mWin rs (q0.AsyncPromptAuth mWin r).2 := rfl
  rw [hsub]
  generalize submitAll mWin rs (q0.AsyncPromptAuth mWin r).2 = q at h
  have hflags : (q.prompts q0.nextPrompt).mAuthInfo.flagsRv = .NS_OK := by
    rw [h.mAuthInfo]
    have := (requestKey_some r key (hkey r (List.mem_cons_self _ _))).1
    cases hf : r.authInfo.flagsRv <;> simp [hf, NS_FAILED, NS_SUCCEEDED] at this ⊢
  refine ⟨h.eventQueue, h.notifications, ?_, ?_⟩
  · rw [DoResponseAsyncPrompt_notifications _ _ _ _ _ hflags, h.notifications, h.notify,
      h.mAuthInfo]
    rfl
  · have hnone : ∀ q2 : AsyncQueue, q2.asyncPrompts = (q.removed q0.nextPrompt).asyncPrompts →
        q2.asyncPromptInProgress = (q.removed q0.nextPrompt).asyncPromptInProgress →
        (∀ p, p < q0.nextPrompt → q2.prompts p = q0.prompts p) →
        q2.DoAsyncPrompt = q2 := by
      intro q2 ha hb hp
      have : q2.findAvailable q2.asyncPrompts = "" := by
        apply findAvailable_none
        intro e he p' hp'
        rw [ha] at he
        simp only [removed, h.mHashKey, h.asyncPrompts] at he
        obtain ⟨hmem, hne⟩ := (mem_mapErase _ _ _).mp he
        rcases mem_setPrompt _ _ _ _ hmem with h0 | h0
        · exact absurd (by rw [h0]) hne
        · obtain ⟨hlt, hbusy⟩ := hothers e h0 p' hp'
          have hw : (q0.prompts p').mWin ≠ mWin := by
            intro hw; rw [hw, hidle] at hbusy; exact Bool.noConfusion hbusy
          rw [hp p' hlt]
          simp only [busy, hb, removed, h.owner, h.busyMap]
          by_cases h0 : mWin = 0
          · simpa [h0, busy] using hbusy
          · simp only [ne_eq, h0, not_false_eq_true, if_true]
            rw [mapFind_mapErase_ne _ _ _ (Ne.symm hw), mapFind_mapSet_ne _ _ _ _ (Ne.symm hw)]
            exact hbusy
      simp [DoAsyncPrompt, this]
    unfold DoResponseAsyncPrompt
    simp only [hflags, NS_FAILED, NS_SUCCEEDED, Bool.not_true, Bool.false_eq_true, if_false]
    refine Eq.trans (congrArg AsyncQueue.eventQueue (hnone _ ?_ ?_ ?_)) ?_
    · rfl
    · rfl
    · intro p hp
      simpa [Function.update, Nat.ne_of_lt hp] using h.others p hp
    · exact h.eventQueue


/-- Witness of C3: three requests for "realm1" on window 7, confirmed with "user" / "secret". -/
theorem C3_coalescing_witness :
    ((AsyncQueue.submitAll 7 [request 1, request 2, request 3]
        AsyncQueue.empty).DoResponseAsyncPrompt 0 true "user" "secret").notifications =
      [request 1, request 2, request 3].map
        (AsyncQueue.outcome true (AsyncQueue.fillAuthInfo authInfo "user" "secret")) :=
  (C3_coalescing 7 AsyncQueue.empty "0|http://example.com|realm1" (request 1)
    [request 2, request 3] true "user" "secret" rfl rfl
    (fun e he => absurd he (List.not_mem_nil e)) (by decide) (by decide)).2.2.1

/-- C4: in every state of the pending set reachable through AsyncPromptAuth, DoAsyncPrompt
and DoResponseAsyncPrompt (the latter on a pending prompt that is in progress, as
DoSendAsyncPrompt calls it), two pending requests marked in progress that have the same owner
window are one and the same entry; when DoAsyncPrompt promotes a request of an owner window, no
pending request of that owner is marked in progress any more; and a reachable state exists in
which requests of two different owners are in progress together. -/
theorem C4_one_in_progress_per_owner (q : AsyncQueue) (h : Reachable q) :
    (∀ e1 ∈ q.asyncPrompts, ∀ e2 ∈ q.asyncPrompts, ∀ p1 p2, e1.2 = some p1 → e2.2 = some p2 →
        (q.prompts p1).mInProgress = true → (q.prompts p2).mInProgress = true →
        (q.prompts p1).mWin = (q.prompts p2).mWin → (q.prompts p1).mWin ≠ 0 → e1 = e2) ∧
    (∀ e ∈ q.asyncPrompts, ∀ p, e.2 = some p → (q.prompts p).mWin ≠ 0 →
        (q.prompts p).mInProgress = false → (q.DoAsyncPrompt.prompts p).mInProgress = true →
        ∀ e' ∈ q.asyncPrompts, ∀ p', e'.2 = some p' →
          (q.prompts p').mWin = (q.prompts p).mWin → (q.prompts p').mInProgress = false) ∧
    ∃ q', Reachable q' ∧ ∃ e1 ∈ q'.asyncPrompts, ∃ e2 ∈ q'.asyncPrompts, ∃ p1 p2,
        e1.2 = some p1 ∧ e2.2 = some p2 ∧ (q'.prompts p1).mInProgress = true ∧
        (q'.prompts p2).mInProgress = true ∧ (q'.prompts p1).mWin ≠ (q'.prompts p2).mWin := by
  have hinv := inv_of_reachable q h
  refine ⟨?_, ?_, ?_⟩
  · intro e1 he1 e2 he2 p1 p2 hp1 hp2 hi1 hi2 hw hw0
    have hp := hinv.single e1 he1 e2 he2 p1 p2 hp1 hp2 hi1 hi2 hw hw0
    obtain ⟨p1', h1, _, hk1⟩ := hinv.valid e1 he1
    obtain ⟨p2', h2, _, hk2⟩ := hinv.valid e2 he2
    rw [hp1, Option.some.injEq] at h1
    rw [hp2, Option.some.injEq] at h2
    apply Prod.ext
    · rw [← hk1, ← hk2, ← h1, ← h2, hp]
    · rw [hp1, hp2, hp]
  · intro e he p hp hw0 hnot hnow e' he' p' hp' hsame
    rcases DoAsyncPrompt_cases q hinv with h1 | ⟨key, p0, _, hb, h1⟩
    · rw [h1, hnot] at hnow
      exact Bool.noConfusion hnow
    · have hpp : p = p0 := by
        by_contra hne
        rw [h1] at hnow
        simp [promoted, Function.update, hne, hnot] at hnow
      subst hpp
      cases hi : (q.prompts p').mInProgress with
      | false => rfl
      | true =>
        have := hinv.busyOwner e' he' p' hp' hi (hsame ▸ hw0)
        rw [hsame, hb] at this
        exact Bool.noConfusion this
  · refine ⟨twoOwners, Reachable.submit _ 2 otherRequest
      (Reachable.submit _ 1 (request 1) Reachable.empty),
      ("0|http://example.com|realm1", some 0), by decide,
      ("1|http://example.com|realm1", some 1), by decide, 0, 1, rfl, rfl, by decide, by decide,
      by decide⟩

/-- Witness of C4: in the pending set after two windows have each submitted a request, both
requests are in progress, so they have different owners. -/
theorem C4_one_in_progress_per_owner_witness :
    decide ((twoOwners.prompts 0).mWin = (twoOwners.prompts 1).mWin) = false :=
  decide_eq_false (fun heq =>
    absurd
      ((C4_one_in_progress_per_owner twoOwners (Reachable.submit _ 2 otherRequest
        (Reachable.submit _ 1 (request 1) Reachable.empty))).1
        ("0|http://example.com|realm1", some 0) (by decide)
        ("1|http://example.com|realm1", some 1) (by decide) 0 1 rfl rfl (by decide) (by decide)
        heq (by decide))
      (by decide))

/-- C9 (the code at the failing inputs): an in-flight auth request with two waiters whose
DoSendAsyncPrompt returns an error.  First for a service built for a null window (the early
return on `!mPrompt->mWin`), then for a response that is accepted with new credentials while no
nsILoginInfo instance can be created (the early return before DoResponseAsyncPrompt).  In both
runs EmbedAuthRunnable::Run has returned (no call is active, the prompt is freed), yet the
request is still in `asyncPrompts`, still marked in progress (in the second run its owner is
still busy in `asyncPromptInProgress`), and no waiter has been notified. -/
theorem C9_error_return_skips_cleanup :
    ((nullWindow.run [.asyncPromptAuth (request 1), .asyncPromptAuth (request 2), .runnable]).stack = [] ∧
     (nullWindow.run [.asyncPromptAuth (request 1), .asyncPromptAuth (request 2), .runnable]).svc.returned =
       [.AsyncPromptAuth .NS_OK none, .AsyncPromptAuth .NS_OK (some 1), .DoSendAsyncPrompt 0 .NS_ERROR_FAILURE] ∧
     (nullWindow.run [.asyncPromptAuth (request 1), .asyncPromptAuth (request 2), .runnable]).svc.queue.asyncPrompts =
       [("0|http://example.com|realm1", some 0)] ∧
     ((nullWindow.run [.asyncPromptAuth (request 1), .asyncPromptAuth (request 2), .runnable]).svc.queue.prompts 0).freed = true ∧
     ((nullWindow.run [.asyncPromptAuth (request 1), .asyncPromptAuth (request 2), .runnable]).svc.queue.prompts 0).mInProgress = true ∧
     (nullWindow.run [.asyncPromptAuth (request 1), .asyncPromptAuth (request 2), .runnable]).svc.queue.notifications = []) ∧
    ((noLoginInfo.run [.asyncPromptAuth (request 1), .asyncPromptAuth (request 2), .runnable, authResponse 42 true]).stack = [] ∧
     (noLoginInfo.run [.asyncPromptAuth (request 1), .asyncPromptAuth (request 2), .runnable, authResponse 42 true]).svc.returned =
       [.AsyncPromptAuth .NS_OK none, .AsyncPromptAuth .NS_OK (some 1), .DoSendAsyncPrompt 0 .NS_ERROR_FAILURE] ∧
     (noLoginInfo.run [.asyncPromptAuth (request 1), .asyncPromptAuth (request 2), .runnable, authResponse 42 true]).svc.queue.asyncPrompts =
       [("0|http://example.com|realm1", some 0)] ∧
     (noLoginInfo.run [.asyncPromptAuth (request 1), .asyncPromptAuth (request 2), .runnable, authResponse 42 true]).svc.queue.busy 7 = true ∧
     ((noLoginInfo.run [.asyncPromptAuth (request 1), .asyncPromptAuth (request 2), .runnable, authResponse 42 true]).svc.queue.prompts 0).freed = true ∧
     (noLoginInfo.run [.asyncPromptAuth (request 1), .asyncPromptAuth (request 2), .runnable, authResponse 42 true]).svc.queue.notifications = []) := by
  decide

/-- C10 (the code at the failing input): two requests coalesce, the second caller holding the
consumer handed back through `_retval` (address 1).  The round trip completes with an accepted
response, so the waiter gets OnAuthAvailable; a Cancel with a failure reason issued on its
consumer afterwards makes a second notification, OnAuthCancelled, on the same callback,
because DoResponseAsyncPrompt leaves `mCallback` set. -/
theorem C10_cancel_after_completion_notifies_again :
    (authService.run [.asyncPromptAuth (request 1), .asyncPromptAuth (request 2)]).svc.returned =
      [.AsyncPromptAuth .NS_OK none, .AsyncPromptAuth .NS_OK (some 1)] ∧
    ((authService.run [.asyncPromptAuth (request 1), .asyncPromptAuth (request 2), .runnable,
        authResponse 42 true, .cancel 1 .NS_ERROR_ABORT]).svc.queue.notifications.filter
        (fun n => n.callback = 2)).length = 2 ∧
    ((authService.run [.asyncPromptAuth (request 1), .asyncPromptAuth (request 2), .runnable,
        authResponse 42 true, .cancel 1 .NS_ERROR_ABORT]).svc.queue.notifications.filter
        (fun n => n.callback = 2)) =
      [.OnAuthAvailable 2 (some 102) ⟨.NS_OK, 1, some "realm1", "user", "secret", ""⟩,
       .OnAuthCancelled 2 (some 102) false] := by
  decide

end AuthQueue

/-! ## Lemmas on the keys and their order -/

theorem keyLt_iff (a b : String) : keyLt a b ↔ a.data < b.data :=
  List.lt_iff_lex_lt _ _

theorem keyLt_trans {a b c : String} (h1 : keyLt a b) (h2 : keyLt b c) : keyLt a c :=
  (keyLt_iff a c).2 (lt_trans ((keyLt_iff a b).1 h1) ((keyLt_iff b c).1 h2))

theorem keyLt_irrefl (a : String) : ¬ keyLt a a :=
  fun h => lt_irrefl _ ((keyLt_iff a a).1 h)

theorem keyLt_of_not {a b : String} (hne : a ≠ b) (h : ¬ keyLt b a) : keyLt a b := by
  rcases lt_trichotomy a.data b.data with h1 | h1 | h1
  · exact (keyLt_iff a b).2 h1
  · exact absurd (String.ext h1) hne
  · exact absurd ((keyLt_iff b a).2 h1) h

theorem setPrompt_nil (key : String) (v : Option Nat) : setPrompt [] key v = [(key, v)] := rfl

theorem setPrompt_cons (k' : String) (v' : Option Nat) (rest : List (String × Option Nat))
    (key : String) (v : Option Nat) :
    setPrompt ((k', v') :: rest) key v =
      if k' = key then (key, v) :: rest
      else if keyLt key k' then (key, v) :: (k', v') :: rest
      else (k', v') :: setPrompt rest key v := rfl

theorem pairwise_setPrompt (m : List (String × Option Nat)) (key : String) (v : Option Nat)
    (h : m.Pairwise (fun a b => keyLt a.1 b.1)) :
    (setPrompt m key v).Pairwise (fun a b => keyLt a.1 b.1) := by
  induction m with
  | nil => simp [setPrompt_nil]
  | cons x rest ih =>
    obtain ⟨k', v'⟩ := x
    rw [List.pairwise_cons] at h
    rw [setPrompt_cons]
    split_ifs with h1 h2
    · subst h1
      exact List.pairwise_cons.2 ⟨fun e he => h.1 e he, h.2⟩
    · refine List.pairwise_cons.2 ⟨fun e he => ?_, List.pairwise_cons.2 h⟩
      rcases List.mem_cons.1 he with he | he
      · subst he; exact h2
      · exact keyLt_trans h2 (h.1 e he)
    · refine List.pairwise_cons.2 ⟨fun e he => ?_, ih h.2⟩
      rcases AsyncQueue.mem_setPrompt _ _ _ _ he with he | he
      · subst he; exact keyLt_of_not h1 h2
      · exact h.1 e he

theorem digitChar_value (m : Nat) (h : m < 10) : (Nat.digitChar m).toNat - 48 = m := by
  interval_cases m <;> decide

theorem digitChar_ne_bar (m : Nat) (h : m < 10) : Nat.digitChar m ≠ '|' := by
  interval_cases m <;> decide

theorem toDigitsCore_value (fuel n : Nat) (ds : List Char) (h : n < fuel) :
    (Nat.toDigitsCore 10 fuel n ds).foldl (fun a c => 10 * a + (c.toNat - 48)) 0 =
      ds.foldl (fun a c => 10 * a + (c.toNat - 48)) n := by
  induction fuel generalizing n ds with
  | zero => omega
  | succ fuel ih =>
    have hd := digitChar_value (n % 10) (Nat.mod_lt _ (by decide))
    by_cases h0 : n / 10 = 0
    · have hn : n % 10 = n := by omega
      have hd' := hd
      rw [hn] at hd'
      simp [Nat.toDigitsCore, h0, hd', hn]
    · have hlt : n / 10 < fuel := by omega
      have := ih (n / 10) (Nat.digitChar (n % 10) :: ds) hlt
      simp only [Nat.toDigitsCore, h0, if_false]
      rw [this]
      simp only [List.foldl_cons, hd]
      congr 1
      omega

theorem decimalValue_toString (n : Nat) : decimalValue (toString n).data = n := by
  have := toDigitsCore_value (n + 1) n [] (Nat.lt_succ_self n)
  simpa [decimalValue, toString, Nat.repr, Nat.toDigits, List.asString] using this

theorem toDigitsCore_chars (fuel n : Nat) (ds : List Char)
    (h : ∀ c ∈ ds, c ≠ '|' ∧ c ≠ Char.ofNat 0) :
    ∀ c ∈ Nat.toDigitsCore 10 fuel n ds, c ≠ '|' ∧ c ≠ Char.ofNat 0 := by
  induction fuel generalizing n ds with
  | zero => simpa [Nat.toDigitsCore] using h
  | succ fuel ih =>
    have hd : ∀ c ∈ Nat.digitChar (n % 10) :: ds, c ≠ '|' ∧ c ≠ Char.ofNat 0 := by
      intro c hc
      rcases List.mem_cons.1 hc with hc | hc
      · subst hc
        exact ⟨digitChar_ne_bar _ (Nat.mod_lt _ (by decide)),
          digitChar_ne_nul _ (Nat.mod_lt _ (by decide))⟩
      · exact h c hc
    by_cases h0 : n / 10 = 0
    · simpa [Nat.toDigitsCore, h0] using hd
    · have := ih (n / 10) _ hd
      simpa [Nat.toDigitsCore, h0] using this

theorem toString_chars (n : Nat) : ∀ c ∈ (toString n).data, c ≠ '|' ∧ c ≠ Char.ofNat 0 := by
  have := toDigitsCore_chars (n + 1) n [] (by simp)
  simpa [toString, Nat.repr, Nat.toDigits, List.asString] using this

theorem append_cons_inj {α : Type} (c : α) (a a' b b' : List α) (ha : c ∉ a) (ha' : c ∉ a')
    (h : a ++ c :: b = a' ++ c :: b') : a = a' ∧ b = b' := by
  induction a generalizing a' with
  | nil =>
    cases a' with
    | nil => simpa using h
    | cons x xs =>
      simp only [List.nil_append, List.cons_append, List.cons.injEq] at h
      exact absurd (h.1 ▸ List.mem_cons_self _ _) ha'
  | cons y ys ih =>
    cases a' with
    | nil =>
      simp only [List.nil_append, List.cons_append, List.cons.injEq] at h
      exact absurd (h.1 ▸ List.mem_cons_self _ _) ha
    | cons x xs =>
      simp only [List.cons_append, List.cons.injEq] at h
      obtain ⟨h1, h2⟩ := ih xs (fun hm => ha (List.mem_cons_of_mem _ hm))
        (fun hm => ha' (List.mem_cons_of_mem _ hm)) h.2
      exact ⟨by rw [h.1, h1], h2⟩

theorem hashKey_data (level : Nat) (hostname httpRealm : String) :
    (hashKey level hostname httpRealm).data =
      (toString level).data ++ '|' :: (hostname.data ++ '|' :: httpRealm.data) := by
  simp [hashKey]

theorem cstr_of_no_nul (s : String) (h : ∀ c ∈ s.data, c ≠ Char.ofNat 0) : cstr s = s := by
  have : s.data.takeWhile (fun c => c != Char.ofNat 0) = s.data :=
    List.takeWhile_eq_self_iff.2 (fun c hc => by simpa using h c hc)
  simp [cstr, this]

/-! ## Lemmas on the order of promotion -/

namespace AsyncQueue

theorem sorted_of_reachable (q : AsyncQueue) (h : Reachable q) :
    q.asyncPrompts.Pairwise (fun a b => keyLt a.1 b.1) := by
  induction h with
  | empty => simp [AsyncQueue.empty]
  | submit q mWin r _ ih =>
    unfold AsyncQueue.AsyncPromptAuth
    dsimp only
    split_ifs
    · exact ih
    · exact ih
    · split
      · exact ih
      · split
        · exact ih
        · rw [DoAsyncPrompt_asyncPrompts]
          exact pairwise_setPrompt _ _ _ ih
  | promote q _ ih => rw [DoAsyncPrompt_asyncPrompts]; exact ih
  | respond q p confirmed username password _ hp hi ih =>
    rw [DoResponseAsyncPrompt_asyncPrompts]
    exact ih.filter _
  | cancel q c reason _ ih =>
    unfold AsyncQueue.Cancel
    split_ifs
    · exact ih
    · exact ih

theorem findAvailable_first (q : AsyncQueue) (l : List (String × Option Nat))
    (h : q.findAvailable l ≠ "") :
    ∃ l1 key p l2, l = l1 ++ (key, some p) :: l2 ∧ q.findAvailable l = cstr key ∧
      q.busy (q.prompts p).mWin = false ∧
      ∀ e ∈ l1, ∀ p', e.2 = some p' → q.busy (q.prompts p').mWin = true := by
  induction l with
  | nil => simp [findAvailable] at h
  | cons x rest ih =>
    obtain ⟨key, ptr⟩ := x
    cases ptr with
    | none =>
      simp only [findAvailable] at h ⊢
      obtain ⟨l1, k, p, l2, hl, hk, hb, hall⟩ := ih h
      refine ⟨(key, none) :: l1, k, p, l2, by rw [hl]; rfl, hk, hb, ?_⟩
      intro e he p' hp'
      rcases List.mem_cons.1 he with he | he
      · subst he; simp at hp'
      · exact hall e he p' hp'
    | some p =>
      by_cases hb : q.busy (q.prompts p).mWin = true
      · simp only [findAvailable, hb, Bool.not_true, Bool.false_eq_true, if_false] at h ⊢
        obtain ⟨l1, k, p0, l2, hl, hk, hb0, hall⟩ := ih h
        refine ⟨(key, some p) :: l1, k, p0, l2, by rw [hl]; rfl, hk, hb0, ?_⟩
        intro e he p' hp'
        rcases List.mem_cons.1 he with he | he
        · subst he
          simp only [Option.some.injEq] at hp'
          subst hp'; exact hb
        · exact hall e he p' hp'
      · simp only [Bool.not_eq_true] at hb
        exact ⟨[], key, p, rest, rfl, by simp [findAvailable, hb], hb, by simp⟩

/-- What DoAsyncPrompt does on a well-formed pending set: nothing, or it promotes the prompt of the
first entry, in the order of the map, whose owner is not busy. -/
theorem DoAsyncPrompt_first (q : AsyncQueue) (h : Inv q) :
    q.DoAsyncPrompt = q ∨ ∃ l1 key p l2, q.asyncPrompts = l1 ++ (key, some p) :: l2 ∧
      (∀ e ∈ l1, ∀ p', e.2 = some p' → q.busy (q.prompts p').mWin = true) ∧
      q.busy (q.prompts p).mWin = false ∧ q.DoAsyncPrompt = q.promoted p := by
  by_cases hk : q.findAvailable q.asyncPrompts = ""
  · left
    simp [DoAsyncPrompt, hk]
  · obtain ⟨l1, key, p, l2, hl, hf, hb, hall⟩ := findAvailable_first q _ hk
    have hm : (key, some p) ∈ q.asyncPrompts := by rw [hl]; simp
    obtain ⟨p', hp', _, hkey⟩ := h.valid _ hm
    simp only [Option.some.injEq] at hp'
    subst hp'
    simp only at hkey
    have hck : cstr key = key := by rw [← hkey, cstr_cstr]
    have hat : q.promptAt key = some p := by
      simp [promptAt, mapFind_of_mem _ _ _ hm h.nodup]
    cases ht : getAuthTarget (q.prompts p).mChannel (q.prompts p).mAuthInfo with
    | none =>
      left
      simp [DoAsyncPrompt, hf, hck, hat, ht]
    | some t =>
      right
      refine ⟨l1, key, p, l2, hl, hall, hb, ?_⟩
      have hne : ¬ key = "" := fun h0 => hk (by rw [hf, hck, h0])
      simp [DoAsyncPrompt, hf, hck, hat, ht, promoted, hne]

theorem least_of_inv_sorted (q : AsyncQueue) (h : Inv q)
    (hs : q.asyncPrompts.Pairwise (fun a b => keyLt a.1 b.1)) (p : Nat)
    (hp : q.DoAsyncPrompt.eventQueue = q.eventQueue ++ [p]) : LeastAvailable q p := by
  rcases DoAsyncPrompt_first q h with h1 | ⟨l1, key, p0, l2, hl, hall, hb, h1⟩
  · rw [h1] at hp
    have := congrArg List.length hp
    simp at this
  · rw [h1] at hp
    have hpp : p0 = p := by simpa [promoted] using hp
    subst hpp
    refine ⟨key, by rw [hl]; simp, hb, ?_⟩
    intro e he p' hp' hb'
    rw [hl] at he hs
    rcases List.mem_append.1 he with he | he
    · have := hall e he p' hp'
      rw [hb'] at this
      exact Bool.noConfusion this
    · rcases List.mem_cons.1 he with he | he
      · exact Or.inl he
      · exact Or.inr ((List.pairwise_cons.1 (List.pairwise_append.1 hs).2.1).1 e he)

theorem leastAvailable_congr (q q' : AsyncQueue) (p : Nat)
    (ha : q'.asyncPrompts = q.asyncPrompts)
    (hb : q'.asyncPromptInProgress = q.asyncPromptInProgress)
    (hw : ∀ p', (q'.prompts p').mWin = (q.prompts p').mWin)
    (h : LeastAvailable q p) : LeastAvailable q' p := by
  obtain ⟨key, hm, hbusy, hall⟩ := h
  have hbe : ∀ w, q'.busy w = q.busy w := fun w => by simp [busy, hb]
  refine ⟨key, by rw [ha]; exact hm, by rw [hbe, hw]; exact hbusy, ?_⟩
  intro e he p' hp' hidle
  rw [ha] at he
  rw [hbe, hw] at hidle
  exact hall e he p' hp' hidle

end AsyncQueue

/-! ## Lemmas on the login manager -/

namespace EmbedAuthPromptService

theorem loginCalls_append (a b : List Effect) : loginCalls (a ++ b) = loginCalls a ++ loginCalls b := by
  simp [loginCalls]

theorem DoSendAsyncPrompt_enter_logins (mPrompt : Nat) (s : EmbedAuthPromptService) :
    (s.DoSendAsyncPrompt_enter mPrompt).2.logins = s.logins ∧
    loginCalls (s.DoSendAsyncPrompt_enter mPrompt).2.trace = loginCalls s.trace ∧
    ∀ g ∈ (s.DoSendAsyncPrompt_enter mPrompt).1,
      (g.username, g.password) =
        prefill (s.queue.prompts mPrompt).mAuthInfo (s.FindLogins g.hostname g.httpRealm) := by
  by_cases h1 : (s.queue.prompts mPrompt).mWin = 0
  · simp [DoSendAsyncPrompt_enter, h1, ret]
  · cases h2 : getAuthTarget (s.queue.prompts mPrompt).mChannel (s.queue.prompts mPrompt).mAuthInfo with
    | none => simp [DoSendAsyncPrompt_enter, h1, h2, ret]
    | some t =>
      by_cases h3 : NS_FAILED (s.queue.prompts mPrompt).mAuthInfo.flagsRv = true
      · simp [DoSendAsyncPrompt_enter, h1, h2, h3, ret]
      · simp [DoSendAsyncPrompt_enter, h1, h2, h3, loginCalls_append, loginCalls]

theorem DoSendAsyncPrompt_leave_unchanged (f : AuthFrame) (s : EmbedAuthPromptService)
    (h : ∀ r, mapFind s.mResponseMap f.winid = some r →
      r.accepted = false ∨ (f.username = r.username ∧ f.password = r.password) ∨ r.dontsave = true) :
    (s.DoSendAsyncPrompt_leave f).logins = s.logins ∧
    (s.DoSendAsyncPrompt_leave f).trace =
      s.trace ++ [Effect.RemoveMessageListener "authresponse"] := by
  unfold DoSendAsyncPrompt_leave
  simp only
  cases hm : mapFind s.mResponseMap f.winid with
  | none => simp [ret]
  | some r =>
    rcases h r hm with h1 | h1 | h1
    · simp [h1, ret]
    · simp [h1, ret]
    · simp [h1, ret]

end EmbedAuthPromptService

/-! ## The claims on the exit paths of the blocking calls -/

section ExitPaths
open PromptConfig EmbedPromptService Scenario

/-- C11 (the code at the failing inputs): Confirm is called with a confirm variable that holds
true.  First on a window that does not yield the window utils: ConfirmCheck leaves through
`NS_ENSURE_TRUE(utils, NS_ERROR_FAILURE)` before it has written anything, Confirm drops that
result and returns NS_OK, and the variable still holds true although no response was accepted;
ConfirmCheck called directly returns NS_ERROR_FAILURE with the variable still true.  Then with
the response entry missing after the wait loop (a nested AlertCheck for the same window has
taken the entry, the outer loop ends on a failed event-loop step): again Confirm returns NS_OK
with the variable still true.  For comparison, a declining response makes the same call report
false. -/
theorem C11_error_return_keeps_aConfirm :
    ((noUtils.run [.call .Confirm confirmTrue]).stack = [] ∧
     (noUtils.run [.call .Confirm confirmTrue]).svc.returned =
       [⟨.Confirm, .NS_OK, none, some true, none⟩]) ∧
    (noUtils.run [.call .ConfirmCheck allArgs]).svc.returned =
       [⟨.ConfirmCheck, .NS_ERROR_FAILURE, some true, some true, none⟩] ∧
    ((service5.run [.call .Confirm confirmTrue, .call .AlertCheck noArgs, response 5 true true "",
        .idle .NS_ERROR_FAILURE false]).stack = [] ∧
     (service5.run [.call .Confirm confirmTrue, .call .AlertCheck noArgs, response 5 true true "",
        .idle .NS_ERROR_FAILURE false]).svc.returned =
       [⟨.AlertCheck, .NS_OK, none, none, none⟩, ⟨.Confirm, .NS_OK, none, some true, none⟩]) ∧
    (service5.run [.call .Confirm confirmTrue, response 5 false false ""]).svc.returned =
       [⟨.Confirm, .NS_OK, none, some false, none⟩] := by
  decide

/-- C12 (the code at the failing input): AlertCheck, ConfirmCheck and Prompt are called on a
window that does not yield the window utils.  Each call has returned (NS_ERROR_FAILURE, no call
is active) after one AddMessageListener for its response message and no RemoveMessageListener:
the early return of `NS_ENSURE_TRUE(utils, NS_ERROR_FAILURE)` comes after the listener is added
and before the only place that removes it.  For comparison, an AlertCheck that returns after a
response has made one call of each. -/
theorem C12_missing_utils_leaves_listener :
    ((noUtils.run [.call .AlertCheck allArgs]).stack = [] ∧
     (noUtils.run [.call .AlertCheck allArgs]).svc.returned =
       [⟨.AlertCheck, .NS_ERROR_FAILURE, some true, none, none⟩] ∧
     listenersAdded "alertresponse" (noUtils.run [.call .AlertCheck allArgs]).svc.trace = 1 ∧
     listenersRemoved "alertresponse" (noUtils.run [.call .AlertCheck allArgs]).svc.trace = 0) ∧
    ((noUtils.run [.call .ConfirmCheck allArgs]).stack = [] ∧
     listenersAdded "confirmresponse" (noUtils.run [.call .ConfirmCheck allArgs]).svc.trace = 1 ∧
     listenersRemoved "confirmresponse" (noUtils.run [.call .ConfirmCheck allArgs]).svc.trace = 0) ∧
    ((noUtils.run [.call .Prompt allArgs]).stack = [] ∧
     listenersAdded "promptresponse" (noUtils.run [.call .Prompt allArgs]).svc.trace = 1 ∧
     listenersRemoved "promptresponse" (noUtils.run [.call .Prompt allArgs]).svc.trace = 0) ∧
    (listenersAdded "alertresponse"
        (service5.run [.call .AlertCheck allArgs, response 5 true true ""]).svc.trace = 1 ∧
     listenersRemoved "alertresponse"
        (service5.run [.call .AlertCheck allArgs, response 5 true true ""]).svc.trace = 1) := by
  decide

end ExitPaths

/-! ## The claim on the order of promotion -/

section Promotion
open AsyncQueue Scenario

/-- C13 (counterexample): window 7 submits requests for the hosts c.example, b.example and
a.example, in this order.  The first is promoted at once; the two others wait in the map, which
holds them in key order.  When the first completes, DoAsyncPrompt promotes the request for
a.example (address 2), which was submitted last, and the request for b.example (address 1),
submitted before it, stays behind. -/
theorem C13_counterexample :
    threeHosts.asyncPrompts =
      [("0|http://a.example|realm1", some 2), ("0|http://b.example|realm1", some 1),
       ("0|http://c.example|realm1", some 0)] ∧
    threeHosts.eventQueue = [0] ∧
    (threeHosts.DoResponseAsyncPrompt 0 true "user" "secret").asyncPrompts =
      [("0|http://a.example|realm1", some 2), ("0|http://b.example|realm1", some 1)] ∧
    (threeHosts.DoResponseAsyncPrompt 0 true "user" "secret").eventQueue = [0, 2] ∧
    ((threeHosts.DoResponseAsyncPrompt 0 true "user" "secret").prompts 1).mInProgress = false ∧
    ((threeHosts.DoResponseAsyncPrompt 0 true "user" "secret").prompts 2).mInProgress = true := by
  decide

/-- C13 (amended): in every reachable state of the pending set, a request that DoAsyncPrompt
promotes (it dispatches the runnable of the prompt at `p`) is pending, its owner has no request
in progress, and its key is the least, in the order of the std::string keys of the map, among
the pending requests whose owner has none in progress; the order of submission plays no part.
The same holds for the call of DoAsyncPrompt that ends DoResponseAsyncPrompt, in the pending
set from which the completed request has been removed. -/
theorem C13_promotes_least_key (q : AsyncQueue) (hq : Reachable q) :
    (∀ p, q.DoAsyncPrompt.eventQueue = q.eventQueue ++ [p] → LeastAvailable q p) ∧
    (∀ p0 confirmed username password p, Pending q p0 → (q.prompts p0).mInProgress = true →
      (q.DoResponseAsyncPrompt p0 confirmed username password).eventQueue = q.eventQueue ++ [p] →
      LeastAvailable (q.removed p0) p) := by
  have hinv := inv_of_reachable q hq
  have hs := sorted_of_reachable q hq
  refine ⟨fun p hp => least_of_inv_sorted q hinv hs p hp, ?_⟩
  intro p0 confirmed username password p hpend hin hp
  have hr := inv_removed q hinv p0 hpend hin
  unfold AsyncQueue.DoResponseAsyncPrompt at hp
  dsimp only at hp
  by_cases hf : NS_FAILED (q.prompts p0).mAuthInfo.flagsRv = true
  · rw [if_pos hf] at hp
    have := congrArg List.length hp
    simp at this
  · rw [if_neg hf] at hp
    have hmid := least_of_inv_sorted _ (by
        refine inv_congr (q.removed p0) _ hr rfl rfl rfl ?_
        intro p'
        by_cases hpp : p' = p0
        · subst hpp; simp [AsyncQueue.removed]
        · simp [AsyncQueue.removed, Function.update, hpp]) (hs.filter _) p hp
    refine leastAvailable_congr _ _ p ?_ ?_ ?_ hmid
    · rfl
    · rfl
    intro p'
    by_cases hpp : p' = p0
    · subst hpp; simp [AsyncQueue.removed]
    · simp [AsyncQueue.removed, Function.update, hpp]

/-- Witness of C13: when the request for c.example completes in `threeHosts`, the request for
a.example is the one promoted; its key comes before the key of the request for b.example. -/
theorem C13_promotes_least_key_witness :
    keyLt "0|http://a.example|realm1" "0|http://b.example|realm1" := by
  obtain ⟨key, hmem, _, hall⟩ :=
    (C13_promotes_least_key threeHosts
      (Reachable.submit _ 7 (requestFor "a.example" 3)
        (Reachable.submit _ 7 (requestFor "b.example" 2)
          (Reachable.submit _ 7 (requestFor "c.example" 1) Reachable.empty)))).2
      0 true "user" "secret" 2 ⟨("0|http://c.example|realm1", some 0), by decide, rfl⟩
      (by decide) (by decide)
  have hL : (threeHosts.removed 0).asyncPrompts =
      [("0|http://a.example|realm1", some 2), ("0|http://b.example|realm1", some 1)] := by
    decide
  rw [hL] at hmem hall
  have hkey : key = "0|http://a.example|realm1" := by simpa using hmem
  subst hkey
  rcases hall ("0|http://b.example|realm1", some 1) (by simp) 1 rfl (by decide) with h | h
  · simp at h
  · exact h

end Promotion

/-! ## The claim on the login manager -/

section Store
open AuthConfig Scenario EmbedAuthPromptService

/-- C14: DoSendAsyncPrompt changes the content of the login manager only after an accepted
response with changed credentials.  Up to its wait loop it calls neither RemoveLogin nor
AddLogin and leaves the stored logins as they are, and the pair it keeps in `username` and
`password` is the one pre-filled from the store (the last stored login of the target, else the
user name of the auth information and an empty password).  After the wait loop, if the stored
logins differ or a RemoveLogin / AddLogin call was made, then the response entry is accepted,
its pair differs from the pre-filled pair and its dontsave flag is not set; and for an entry
that is not accepted, or whose pair equals the pre-filled one, the stored logins are unchanged
and no such call is made. -/
theorem C14_store_changes_only_after_changed_accept (s : EmbedAuthPromptService)
    (mPrompt : Nat) (f : AuthFrame) :
    ((s.DoSendAsyncPrompt_enter mPrompt).2.logins = s.logins ∧
     loginCalls (s.DoSendAsyncPrompt_enter mPrompt).2.trace = loginCalls s.trace ∧
     ∀ g ∈ (s.DoSendAsyncPrompt_enter mPrompt).1,
       (g.username, g.password) =
         prefill (s.queue.prompts mPrompt).mAuthInfo (s.FindLogins g.hostname g.httpRealm)) ∧
    (((s.DoSendAsyncPrompt_leave f).logins ≠ s.logins ∨
      loginCalls (s.DoSendAsyncPrompt_leave f).trace ≠ loginCalls s.trace) →
      ∃ r, mapFind s.mResponseMap f.winid = some r ∧ r.accepted = true ∧
        (r.username, r.password) ≠ (f.username, f.password) ∧ r.dontsave = false) ∧
    (∀ r, mapFind s.mResponseMap f.winid = some r →
      r.accepted = false ∨ (r.username, r.password) = (f.username, f.password) →
      (s.DoSendAsyncPrompt_leave f).logins = s.logins ∧
      loginCalls (s.DoSendAsyncPrompt_leave f).trace = loginCalls s.trace) := by
  refine ⟨DoSendAsyncPrompt_enter_logins mPrompt s, ?_, ?_⟩
  · intro hch
    by_contra hno
    have h := DoSendAsyncPrompt_leave_unchanged f s (fun r hr => by
      by_contra hc
      simp only [not_or, Bool.not_eq_false, Bool.not_eq_true] at hc
      exact hno ⟨r, hr, hc.1, fun he => hc.2.1 ⟨(congrArg Prod.fst he).symm,
        (congrArg Prod.snd he).symm⟩, hc.2.2⟩)
    rcases hch with hch | hch
    · exact hch h.1
    · exact hch (by rw [h.2, loginCalls_append]; simp [loginCalls])
  · intro r hr hc
    have h := DoSendAsyncPrompt_leave_unchanged f s (fun r' hr' => by
      have : r' = r := Option.some.inj (hr'.symm.trans hr)
      subst this
      rcases hc with hc | hc
      · exact Or.inl hc
      · exact Or.inr (Or.inl ⟨(congrArg Prod.fst hc).symm, (congrArg Prod.snd hc).symm⟩))
    exact ⟨h.1, by rw [h.2, loginCalls_append]; simp [loginCalls]⟩

/-- Witness of C14: a first round trip stores the login "user" / "secret"; a second request for
the same target is pre-filled with it, and an accepted response that carries the same pair
leaves the one stored login as it is. -/
theorem C14_store_changes_only_after_changed_accept_witness :
    (authService.run [.asyncPromptAuth (request 1), .runnable, authResponse 42 true,
        .asyncPromptAuth (request 2), .runnable]).stack =
      [⟨1, 42, 1, "http://example.com", "realm1", "user", "secret"⟩] ∧
    (authService.run [.asyncPromptAuth (request 1), .runnable, authResponse 42 true,
        .asyncPromptAuth (request 2), .runnable, authResponse 42 true]).svc.logins =
      [⟨"http://example.com", "realm1", "user", "secret"⟩] ∧
    (((authService.run [.asyncPromptAuth (request 1), .runnable, authResponse 42 true,
        .asyncPromptAuth (request 2), .runnable]).svc.OnMessageReceived
          (some ⟨some 42, some true, none, some false, none, some "user", some "secret"⟩)).2.DoSendAsyncPrompt_leave
        ⟨1, 42, 1, "http://example.com", "realm1", "user", "secret"⟩).logins =
      [⟨"http://example.com", "realm1", "user", "secret"⟩] :=
  ⟨by decide, by decide,
   ((C14_store_changes_only_after_changed_accept
      ((authService.run [.asyncPromptAuth (request 1), .runnable, authResponse 42 true,
        .asyncPromptAuth (request 2), .runnable]).svc.OnMessageReceived
          (some ⟨some 42, some true, none, some false, none, some "user", some "secret"⟩)).2
      0 ⟨1, 42, 1, "http://example.com", "realm1", "user", "secret"⟩).2.2
      ⟨true, false, false, "", "user", "secret"⟩ (by decide) (Or.inr rfl)).1.trans (by decide)⟩

end Store

/-! ## The claim on responses without an entry -/

section Rejection
open PromptConfig EmbedPromptService Scenario

/-- C15: a response whose window id has no entry in the response map is rejected without
effect.  For every state of either service and every message whose `winid` (0 when the
property is missing) is absent from `mResponseMap`, OnMessageReceived returns NS_ERROR_FAILURE
and leaves the service as it was, response map and `mModalDepth` included.  No wait loop is
woken: while the window is alive and the innermost loop, if any, has its condition true, the
event leaves the service and its active calls as they were. -/
theorem C15_unknown_key_rejected (s : EmbedPromptService) (a : EmbedAuthPromptService)
    (c : PromptConfig) (d : AuthConfig) (root : Root) :
    (mapFind s.mResponseMap (root.winid.getD 0) = none →
      s.OnMessageReceived (some root) = (.NS_ERROR_FAILURE, s)) ∧
    (mapFind a.mResponseMap (root.winid.getD 0) = none →
      a.OnMessageReceived (some root) = (.NS_ERROR_FAILURE, a)) ∧
    (mapFind c.svc.mResponseMap (root.winid.getD 0) = none → c.svc.winid ≠ 0 →
      (∀ f ∈ c.stack.head?, c.svc.waiting f.origModalDepth .NS_OK = true) →
      c.step (.message (some root)) = c) ∧
    (mapFind d.svc.mResponseMap (root.winid.getD 0) = none →
      d.svc.GetIDByWindow d.svc.mWin ≠ 0 → d.svc.crashed = false →
      (∀ f ∈ d.stack.head?, d.svc.waiting f.origModalDepth .NS_OK = true) →
      d.step (.message (some root)) = d) := by
  refine ⟨fun h => by simp [EmbedPromptService.OnMessageReceived, h],
    fun h => by simp [EmbedAuthPromptService.OnMessageReceived, h], ?_, ?_⟩
  · intro h hw hf
    obtain ⟨s, st⟩ := c
    simp only [step, EmbedPromptService.OnMessageReceived, h]
    cases st with
    | nil => rfl
    | cons f rest =>
      have hf' := hf f (by simp)
      simp only at hf' hw
      have : afterProcessNextEvent .NS_OK true s = (.NS_OK, s) := by
        simp [afterProcessNextEvent, NS_SUCCEEDED, EmbedPromptService.CheckWinID, hw]
      simp [EmbedPromptService.unwind, this, hf', ofPair]
  · intro h hw hc hf
    obtain ⟨s, st⟩ := d
    simp only at hc hw h hf
    simp only [AuthConfig.step, hc, EmbedAuthPromptService.OnMessageReceived, h]
    cases st with
    | nil => rfl
    | cons f rest =>
      have hf' := hf f (by simp)
      have : EmbedAuthPromptService.afterProcessNextEvent .NS_OK true s = (.NS_OK, s) := by
        simp [EmbedAuthPromptService.afterProcessNextEvent, NS_SUCCEEDED, EmbedAuthPromptService.CheckWinID, hw]
      simp [EmbedAuthPromptService.unwind, this, hf', AuthConfig.ofPair, hc]

/-- Witness of C15: an AlertCheck waits for window 5 and a response for window 9 arrives; a
DoSendAsyncPrompt waits for window id 42 and a response for window 9 arrives. -/
theorem C15_unknown_key_rejected_witness :
    (service5.run [.call .AlertCheck noArgs]).step (response 9 true true "x") =
      service5.run [.call .AlertCheck noArgs] ∧
    ((authService.run [.asyncPromptAuth (request 1), .runnable]).svc.OnMessageReceived
      (some ⟨some 9, some true, some true, some false, some "x", some "user",
        some "secret"⟩)).1 = .NS_ERROR_FAILURE :=
  ⟨(C15_unknown_key_rejected (service5.run [.call .AlertCheck noArgs]).svc
      (authService.run [.asyncPromptAuth (request 1), .runnable]).svc
      (service5.run [.call .AlertCheck noArgs])
      (authService.run [.asyncPromptAuth (request 1), .runnable])
      ⟨some 9, some true, some true, some false, some "x", some "user", some "secret"⟩).2.2.1
      (by decide) (by decide) (by decide),
   congrArg Prod.fst
    ((C15_unknown_key_rejected (service5.run [.call .AlertCheck noArgs]).svc
      (authService.run [.asyncPromptAuth (request 1), .runnable]).svc
      (service5.run [.call .AlertCheck noArgs])
      (authService.run [.asyncPromptAuth (request 1), .runnable])
      ⟨some 9, some true, some true, some false, some "x", some "user", some "secret"⟩).2.1
      (by decide))⟩

end Rejection

/-! ## The claim on the identity key -/

section Keys
open AsyncQueue Scenario

/-- C16 (counterexample): the host "http://a|b" with the realm "c" and the host "http://a"
with the realm "b|c" are different targets with one key, "0|http://a|b|c".  Two requests with
these targets coalesce: after both are submitted the pending set has a single entry, whose
prompt has both waiters, and the second call got its consumer back as for a duplicate. -/
theorem C16_counterexample :
    hashKey 0 "http://a|b" "c" = hashKey 0 "http://a" "b|c" ∧
    ((0, "http://a|b", "c") : Nat × String × String) ≠ (0, "http://a", "b|c") ∧
    getAuthTarget barInHost.aChannel barInHost.authInfo = some ("http://a|b", "c") ∧
    getAuthTarget barInRealm.aChannel barInRealm.authInfo = some ("http://a", "b|c") ∧
    (submitAll 7 [barInHost, barInRealm] AsyncQueue.empty).asyncPrompts =
      [("0|http://a|b|c", some 0)] ∧
    ((submitAll 7 [barInHost, barInRealm] AsyncQueue.empty).prompts 0).consumers = [0, 1] ∧
    ((AsyncQueue.empty.AsyncPromptAuth 7 barInHost).2.AsyncPromptAuth 7 barInRealm).1 =
      (.NS_OK, some 1) := by
  decide

/-- C16 (amended): for all levels and all host names and realms such that neither host name
contains the character "|", the key `level + "|" + hostname + "|" + realm` is equal for two
requests if and only if their (level, host name, realm) triples are equal.  When moreover no
host name or realm contains a NUL character, the same holds for the C strings of the keys,
which are what `asyncPrompts` is indexed by, so two such requests coalesce exactly when their
triples are equal. -/
theorem C16_key_injective_without_bar (l1 l2 : Nat) (host1 realm1 host2 realm2 : String)
    (h1 : '|' ∉ host1.data) (h2 : '|' ∉ host2.data) :
    (hashKey l1 host1 realm1 = hashKey l2 host2 realm2 ↔
      (l1, host1, realm1) = (l2, host2, realm2)) ∧
    ((∀ c ∈ host1.data ++ realm1.data ++ host2.data ++ realm2.data, c ≠ Char.ofNat 0) →
      (cstr (hashKey l1 host1 realm1) = cstr (hashKey l2 host2 realm2) ↔
        (l1, host1, realm1) = (l2, host2, realm2))) := by
  have hinj : hashKey l1 host1 realm1 = hashKey l2 host2 realm2 ↔
      (l1, host1, realm1) = (l2, host2, realm2) := by
    constructor
    · intro h
      have hd := congrArg String.data h
      rw [hashKey_data, hashKey_data] at hd
      obtain ⟨hl, hrest⟩ := append_cons_inj '|' _ _ _ _
        (fun hm => (toString_chars l1 _ hm).1 rfl) (fun hm => (toString_chars l2 _ hm).1 rfl) hd
      obtain ⟨hh, hr⟩ := append_cons_inj '|' _ _ _ _ h1 h2 hrest
      have hl' : l1 = l2 := by
        rw [← decimalValue_toString l1, ← decimalValue_toString l2, hl]
      rw [hl', String.ext hh, String.ext hr]
    · intro h
      simp only [Prod.mk.injEq] at h
      rw [h.1, h.2.1, h.2.2]
  refine ⟨hinj, fun hn => ?_⟩
  have hc : ∀ (l : Nat) (h r : String), (∀ c ∈ h.data, c ≠ Char.ofNat 0) →
      (∀ c ∈ r.data, c ≠ Char.ofNat 0) → cstr (hashKey l h r) = hashKey l h r := by
    intro l h r hh hr
    apply cstr_of_no_nul
    intro c hc
    rw [hashKey_data] at hc
    simp only [List.mem_append, List.mem_cons] at hc
    rcases hc with hc | hc | hc | hc | hc
    · exact (toString_chars l c hc).2
    · rw [hc]; decide
    · exact hh c hc
    · rw [hc]; decide
    · exact hr c hc
  rw [hc l1 host1 realm1 (fun c hc => hn c (by simp [hc])) (fun c hc => hn c (by simp [hc])),
    hc l2 host2 realm2 (fun c hc => hn c (by simp [hc])) (fun c hc => hn c (by simp [hc]))]
  exact hinj

/-- Witness of C16: on one host, the realms "a|b" and "a" give different keys. -/
theorem C16_key_injective_without_bar_witness :
    hashKey 0 "http://example.com" "a|b" ≠ hashKey 0 "http://example.com" "a" :=
  fun h => absurd
    ((C16_key_injective_without_bar 0 0 "http://example.com" "a|b" "http://example.com" "a"
      (by decide) (by decide)).1.1 h) (by decide)

end Keys

end EmbedLite
